import Mathlib

/-!
# A shallow embedding of the MicroExchange core order book

This file embeds the C++ core of the MicroExchange repository
(`src/core/include/Order.h`, `PriceLevel.h`, `OrderBook.h`,
`MatchingEngine.h`) as executable Lean definitions and proves or refutes
the specification claims about it.

Modelling conventions:

* `Price` (`int64_t`) is modelled as `Int`; the core only compares and
  copies prices, so no wrap-around arithmetic on prices is ever executed.
* `Quantity`, `OrderId`, `SeqNum` (`uint64_t`) are modelled as `Nat`
  together with explicit wrap-around helpers `wadd`/`wsub` applied at
  exactly the places where the C++ performs unsigned arithmetic.
  `PriceLevel::order_count_` (`uint32_t`) uses `w32add`/`w32sub`.
* The arena is a `List Order`; C++ `Order*` pointers become indices
  (`ref : Nat`) into that list.  The intrusive FIFO of a `PriceLevel`
  becomes the list `queue` of such refs (head = oldest).
* `std::map<Price, PriceLevel>` becomes a list of levels sorted with the
  best price first: `asks` in ascending price order (the map's forward
  iteration order) and `bids` in descending price order (the map's
  reverse iteration order, which is how `OrderBook` reads it).
  `can_fill_completely` iterates the bid map in its *forward* (ascending)
  order, hence uses `bids.reverse`.
* `std::unordered_map<OrderId, Order*>` becomes an association list with
  unique keys; only `find`, `operator[]`, `erase` and `size` are used by
  the code, all of which are modelled faithfully.
* Timestamps (`entry_time`, `last_update`, `exec_time`) are wall-clock
  values and are omitted; no control flow in the core depends on them.
  `TimeInForce` and the symbol tag are never inspected by the book and
  are omitted from `Order`.
* Operations return `Option`: `none` marks executions in which the C++
  runs into undefined behaviour (dereferencing the null `head_` in
  `PriceLevel::front()` when `order_count_` and the linked list disagree,
  or an out-of-range arena access).
* `Trade` carries two ghost fields `buy_ref`/`sell_ref` recording which
  arena cells produced the trade; the C++ `Trade` only stores ids, but
  the ghost refs let object-level statements ("this cancelled order never
  trades again") be expressed.  `MatchCtx.sat_events` is a ghost counter
  of how often the clamping branch of `PriceLevel::reduce_quantity` runs.
-/

set_option maxHeartbeats 1000000

namespace MicroExchange

/-- Modulus of `uint64_t` arithmetic. -/
def U64 : Nat := 2 ^ 64

/-- Modulus of `uint32_t` arithmetic (`PriceLevel::order_count_`). -/
def U32 : Nat := 2 ^ 32

/-- Wrapping `uint64_t` addition. -/
def wadd (a b : Nat) : Nat := (a + b) % U64

/-- Wrapping `uint64_t` subtraction (for representatives below `2^64`). -/
def wsub (a b : Nat) : Nat := (a + U64 - b % U64) % U64

/-- Wrapping `uint32_t` addition. -/
def w32add (a b : Nat) : Nat := (a + b) % U32

/-- Wrapping `uint32_t` subtraction (for representatives below `2^32`). -/
def w32sub (a b : Nat) : Nat := (a + U32 - b % U32) % U32

/-- `enum class Side` from `Order.h`. -/
inductive Side where
  | Buy
  | Sell
deriving DecidableEq, Repr

/-- `enum class OrderType` from `Order.h`. -/
inductive OrderType where
  | Limit
  | Market
  | IOC
  | FOK
deriving DecidableEq, Repr

/-- `enum class OrderStatus` from `Order.h`. -/
inductive OrderStatus where
  | New
  | PartiallyFilled
  | Filled
  | Cancelled
  | Rejected
  | Amended
deriving DecidableEq, Repr

/-- `Price` is `int64_t`: price in ticks. -/
abbrev Price := Int

/-- `Quantity` is `uint64_t`. -/
abbrev Quantity := Nat

/-- `OrderId` is `uint64_t`. -/
abbrev OrderId := Nat

/-- `SeqNum` is `uint64_t`. -/
abbrev SeqNum := Nat

/-- `PRICE_MARKET = 0`: sentinel meaning "no price limit". -/
def PRICE_MARKET : Price := 0

/-- The `Order` record from `Order.h` (timestamps, tif, symbol and the
intrusive `prev`/`next` pointers omitted; the links are represented by
membership of the order's arena ref in a level's `queue`). -/
structure Order where
  id : Nat
  sequence : Nat
  side : Side
  type : OrderType
  price : Int
  quantity : Nat
  filled_qty : Nat
  leaves_qty : Nat
  status : OrderStatus
deriving DecidableEq, Repr

/-- `Order::is_buy`. -/
def Order.is_buy (o : Order) : Bool := o.side == .Buy

/-- `Order::is_filled`. -/
def Order.is_filled (o : Order) : Bool := o.leaves_qty == 0

/-- `Order::is_active`: only `New` and `PartiallyFilled` count as active. -/
def Order.is_active (o : Order) : Bool :=
  o.status == .New || o.status == .PartiallyFilled

/-- `Order::fill`: `filled_qty += qty; leaves_qty -= qty;` and the status
update, with explicit `uint64_t` wrap-around. -/
def Order.fill (o : Order) (qty : Nat) : Order :=
  { o with
    filled_qty := wadd o.filled_qty qty
    leaves_qty := wsub o.leaves_qty qty
    status := if wsub o.leaves_qty qty = 0 then .Filled else .PartiallyFilled }

/-- `Order::cancel`: status `Cancelled`, `leaves_qty = 0`. -/
def Order.cancel (o : Order) : Order :=
  { o with status := .Cancelled, leaves_qty := 0 }

/-- The `Trade` record from `Order.h` (wall-clock `exec_time` and symbol
omitted).  `buy_ref`/`sell_ref` are ghost fields recording the arena refs
of the two orders; they are not part of the C++ struct. -/
structure Trade where
  sequence : Nat
  buy_order_id : Nat
  sell_order_id : Nat
  price : Int
  quantity : Nat
  aggressor : Side
  buy_ref : Nat
  sell_ref : Nat
deriving DecidableEq, Repr

/-- A price level from `PriceLevel.h`: cached aggregate quantity, cached
order count (`uint32_t`), and the FIFO queue of arena refs (head =
oldest, i.e. `head_`). -/
structure PriceLevel where
  price : Int
  total_quantity : Nat
  order_count : Nat
  queue : List Nat
deriving DecidableEq, Repr

/-- A freshly constructed empty `PriceLevel` at a price
(`try_emplace(price, price)`). -/
def PriceLevel.mk0 (p : Int) : PriceLevel :=
  { price := p, total_quantity := 0, order_count := 0, queue := [] }

/-- `PriceLevel::empty`: tested via `order_count_ == 0`. -/
def PriceLevel.isEmptyLevel (l : PriceLevel) : Bool := l.order_count == 0

/-- `PriceLevel::push_back`: append at the tail, add the order's
`leaves_qty` to the aggregate, bump the count. -/
def PriceLevel.push_back (l : PriceLevel) (ref : Nat) (leaves : Nat) :
    PriceLevel :=
  { l with
    queue := l.queue ++ [ref]
    total_quantity := wadd l.total_quantity leaves
    order_count := w32add l.order_count 1 }

/-- `PriceLevel::remove`: unlink by handle.  If the order is linked in
this queue it is spliced out; if its `prev`/`next` are null (an order
that was never linked, or already unlinked) the C++ pointer fix-ups set
`head_ = tail_ = nullptr`, emptying the whole queue.  Both branches
decrement the aggregate by `leaves` and the count by one. -/
def PriceLevel.remove (l : PriceLevel) (ref : Nat) (leaves : Nat) :
    PriceLevel :=
  { l with
    queue := if l.queue.contains ref then l.queue.erase ref else []
    total_quantity := wsub l.total_quantity leaves
    order_count := w32sub l.order_count 1 }

/-- `PriceLevel::pop_front`: no-op on a null head; otherwise drop the
head and subtract its current `leaves_qty` (passed by the caller, who
reads the order) from the aggregate. -/
def PriceLevel.pop_front (l : PriceLevel) (front_leaves : Nat) :
    PriceLevel :=
  match l.queue with
  | [] => l
  | _ :: t =>
      { l with
        queue := t
        total_quantity := wsub l.total_quantity front_leaves
        order_count := w32sub l.order_count 1 }

/-- `PriceLevel::reduce_quantity`: subtract `filled` from the cached
aggregate, clamping at zero.  The boolean reports whether the clamping
(saturation) branch was taken (ghost observation). -/
def PriceLevel.reduce_quantity (l : PriceLevel) (filled : Nat) :
    PriceLevel × Bool :=
  if l.total_quantity < filled then ({ l with total_quantity := 0 }, true)
  else ({ l with total_quantity := l.total_quantity - filled }, false)

/-- The id index `std::unordered_map<OrderId, Order*>`: association list
with unique keys; values are arena refs. -/
abbrev OrderIndex := List (OrderId × Nat)

/-- `order_index_.find(id)`. -/
def idx_lookup (m : OrderIndex) (k : Nat) : Option Nat :=
  match m with
  | [] => none
  | (k2, v) :: t => if k2 = k then some v else idx_lookup t k

/-- `order_index_.erase(id)` (an `unordered_map` holds each key once, so
filtering the key out is the same operation). -/
def idx_erase (m : OrderIndex) (k : Nat) : OrderIndex :=
  m.filter (fun e => e.1 != k)

/-- `order_index_[id] = ref`: insert-or-overwrite. -/
def idx_insert (m : OrderIndex) (k : Nat) (v : Nat) : OrderIndex :=
  (k, v) :: idx_erase m k

/-- The mutable state of `OrderBook` other than the two level maps:
arena, id index, sequence counter, statistics, plus the record of all
emitted trades (the trade callback's history) and the ghost saturation
counter. -/
structure MatchCtx where
  arena : List Order
  order_index : OrderIndex
  next_sequence : Nat
  trade_count : Nat
  total_volume : Nat
  trades : List Trade
  sat_events : Nat
deriving DecidableEq, Repr

/-- The `OrderBook`: bid levels best (highest) price first, ask levels
best (lowest) price first, and the shared mutable context. -/
structure OrderBook where
  bids : List PriceLevel
  asks : List PriceLevel
  ctx : MatchCtx
deriving DecidableEq, Repr

/-- The freshly constructed book. -/
def OrderBook.empty : OrderBook :=
  { bids := [], asks := []
    ctx := { arena := [], order_index := [], next_sequence := 1,
             trade_count := 0, total_volume := 0, trades := [], sat_events := 0 } }

/-- `best_bid()`: greatest bid price (head of the descending bid list). -/
def OrderBook.best_bid (b : OrderBook) : Option Price :=
  match b.bids with
  | [] => none
  | l :: _ => some l.price

/-- `best_ask()`: least ask price (head of the ascending ask list). -/
def OrderBook.best_ask (b : OrderBook) : Option Price :=
  match b.asks with
  | [] => none
  | l :: _ => some l.price

/-- `check_no_crossed_book()`. -/
def OrderBook.check_no_crossed_book (b : OrderBook) : Bool :=
  match b.best_bid, b.best_ask with
  | some bb, some ba => decide (bb < ba)
  | _, _ => true

/-- The price test for a buy aggressor against an ask level
(`order_price >= level_price || order_price == PRICE_MARKET`). -/
def buy_price_ok (order_price level_price : Int) : Bool :=
  decide (level_price ≤ order_price) || order_price == PRICE_MARKET

/-- The price test for a sell aggressor against a bid level
(`order_price <= level_price || order_price == PRICE_MARKET`). -/
def sell_price_ok (order_price level_price : Int) : Bool :=
  decide (order_price ≤ level_price) || order_price == PRICE_MARKET

/-- Bid-side insertion order: higher price comes first. -/
def bid_before (p q : Int) : Bool := decide (q < p)

/-- Ask-side insertion order: lower price comes first. -/
def ask_before (p q : Int) : Bool := decide (p < q)

/-- `levels.try_emplace(price, price)` followed by `push_back(order)`:
append the ref to the (possibly freshly created) level at `p`, keeping
the side sorted by `before`. -/
def side_insert_push (side : List PriceLevel) (before : Int → Price → Bool)
    (p : Int) (ref : Nat) (leaves : Nat) : List PriceLevel :=
  match side with
  | [] => [(PriceLevel.mk0 p).push_back ref leaves]
  | l :: rest =>
      if l.price = p then l.push_back ref leaves :: rest
      else if before p l.price then
        (PriceLevel.mk0 p).push_back ref leaves :: l :: rest
      else l :: side_insert_push rest before p ref leaves

/-- `remove_from_book` on one side: find the level at `p`, unlink, and
erase the level if it reports empty. -/
def side_remove (side : List PriceLevel) (p : Int) (ref : Nat)
    (leaves : Nat) : List PriceLevel :=
  match side with
  | [] => []
  | l :: rest =>
      if l.price = p then
        let l2 := l.remove ref leaves
        if l2.order_count = 0 then rest else l2 :: rest
      else l :: side_remove rest p ref leaves

/-- The level-aggregate update in the quantity-reduction branch of
`amend_order`: find the level at `p` and call `reduce_quantity`.  The
boolean reports whether the clamping branch ran. -/
def side_reduce (side : List PriceLevel) (p : Int) (delta : Nat) :
    List PriceLevel × Bool :=
  match side with
  | [] => ([], false)
  | l :: rest =>
      if l.price = p then
        let r := l.reduce_quantity delta
        (r.1 :: rest, r.2)
      else
        let r := side_reduce rest p delta
        (l :: r.1, r.2)

/-- `rest_order`: link the remainder into its own side. -/
def OrderBook.rest_order (b : OrderBook) (ref : Nat) (o : Order) : OrderBook :=
  if o.is_buy then
    { b with bids := side_insert_push b.bids bid_before o.price ref o.leaves_qty }
  else
    { b with asks := side_insert_push b.asks ask_before o.price ref o.leaves_qty }

/-- `remove_from_book`. -/
def OrderBook.remove_from_book (b : OrderBook) (o : Order) (ref : Nat) :
    OrderBook :=
  if o.is_buy then
    { b with bids := side_remove b.bids o.price ref o.leaves_qty }
  else
    { b with asks := side_remove b.asks o.price ref o.leaves_qty }

/-- The `Trade` record built in the inner loop of `match_against`
(`Order.h` ids and sides read off the incoming and resting orders). -/
def mk_trade (c : MatchCtx) (inc : Order) (inc_ref : Nat) (resting : Order)
    (r : Nat) (fill_qty : Nat) : Trade :=
  { sequence := c.next_sequence
    buy_order_id := if inc.is_buy then inc.id else resting.id
    sell_order_id := if inc.is_buy then resting.id else inc.id
    price := resting.price
    quantity := fill_qty
    aggressor := inc.side
    buy_ref := if inc.is_buy then inc_ref else r
    sell_ref := if inc.is_buy then r else inc_ref }

/-- Ghost: 1 when the clamping branch of `reduce_quantity` ran. -/
def sat_count (sat : Bool) : Nat :=
  if sat then 1 else 0

/-- The body of the inner FIFO walk of `match_against` at one level:
repeatedly fill against `front()` while the incoming order has leaves
and the level's count is non-zero.  The first argument is structurally
the level's queue (callers pass `l.queue`; it shrinks in lock-step with
the pops, giving structural recursion).  Returns `none` where the C++
would dereference a null `head_` (count and queue disagreeing) or follow
a dangling ref. -/
def match_level_go (inc_ref : Nat) :
    List Nat → Order → PriceLevel → MatchCtx →
    Option (Order × PriceLevel × MatchCtx)
  | q, inc, l, c =>
    if inc.leaves_qty = 0 then some (inc, l, c)
    else if l.order_count = 0 then some (inc, l, c)
    else
      match q with
      | [] => none
      | _ :: qt =>
          match l.queue with
          | [] => none
          | r :: _ =>
              match c.arena.get? r with
              | none => none
              | some resting =>
                  let fill_qty := min inc.leaves_qty resting.leaves_qty
                  let trade : Trade := mk_trade c inc inc_ref resting r fill_qty
                  let l1 := (l.reduce_quantity fill_qty).1
                  let sat := (l.reduce_quantity fill_qty).2
                  let inc2 := inc.fill fill_qty
                  let resting2 := resting.fill fill_qty
                  let c2 : MatchCtx :=
                    { c with
                      arena := c.arena.set r resting2
                      next_sequence := wadd c.next_sequence 1
                      trades := c.trades ++ [trade]
                      trade_count := wadd c.trade_count 1
                      total_volume := wadd c.total_volume fill_qty
                      sat_events := c.sat_events + sat_count sat }
                  if resting2.leaves_qty = 0 then
                    let l2 := l1.pop_front resting2.leaves_qty
                    let c3 := { c2 with
                      order_index := idx_erase c2.order_index resting2.id }
                    match_level_go inc_ref qt inc2 l2 c3
                  else
                    some (inc2, l1, c2)

/-- The inner FIFO walk of `match_against` at one level. -/
def OrderBook.match_against_level (inc : Order) (inc_ref : Nat)
    (l : PriceLevel) (c : MatchCtx) :
    Option (Order × PriceLevel × MatchCtx) :=
  match_level_go inc_ref l.queue inc l c

/-- The outer loop of `match_against`: take the best contra level, stop
when the incoming order is exhausted or the price test fails, otherwise
walk the level's FIFO; erase the level when it empties and continue. -/
def OrderBook.match_against (inc : Order) (inc_ref : Nat)
    (contra : List PriceLevel) (price_ok : Int → Price → Bool)
    (c : MatchCtx) : Option (Order × List PriceLevel × MatchCtx) :=
  match contra with
  | [] => some (inc, [], c)
  | l :: rest =>
      if inc.leaves_qty = 0 then some (inc, l :: rest, c)
      else if ¬ price_ok inc.price l.price then some (inc, l :: rest, c)
      else
        match OrderBook.match_against_level inc inc_ref l c with
        | none => none
        | some (inc2, l2, c2) =>
            if l2.order_count = 0 then
              OrderBook.match_against inc2 inc_ref rest price_ok c2
            else
              some (inc2, l2 :: rest, c2)

/-- The loop body of `can_fill_completely`, walking the contra side in
the map's forward iteration order. -/
def can_fill_walk (o : Order) (needed : Nat)
    (contra : List PriceLevel) : Bool :=
  match contra with
  | [] => needed == 0
  | l :: rest =>
      if o.is_buy && decide (o.price < l.price) && (o.price != PRICE_MARKET) then
        needed == 0
      else if !o.is_buy && decide (l.price < o.price) && (o.price != PRICE_MARKET) then
        needed == 0
      else
        let needed2 := needed - min needed l.total_quantity
        if needed2 = 0 then true else can_fill_walk o needed2 rest

/-- The contra side in the order the `for (const auto& [price, level] : contra)`
loop of `can_fill_completely` visits it: ascending price order.  The ask
map is stored ascending; the bid map is stored best-first (descending)
here, so its forward map order is the reverse. -/
def OrderBook.contra_map_order (b : OrderBook) (o : Order) : List PriceLevel :=
  if o.is_buy then b.asks else b.bids.reverse

/-- `can_fill_completely`: the FOK pre-check over cached level totals. -/
def OrderBook.can_fill_completely (b : OrderBook) (o : Order) : Bool :=
  can_fill_walk o o.leaves_qty (b.contra_map_order o)

/-- `OrderBook::match`: the FOK pre-check, then `match_against` on the
contra side with the side's price test. -/
def OrderBook.match_step (b : OrderBook) (inc : Order) (inc_ref : Nat) :
    Option (Order × OrderBook) :=
  if inc.type == .FOK && !(b.can_fill_completely inc) then some (inc, b)
  else if inc.is_buy then
    match OrderBook.match_against inc inc_ref b.asks buy_price_ok b.ctx with
    | none => none
    | some (inc2, asks2, c2) => some (inc2, { b with asks := asks2, ctx := c2 })
  else
    match OrderBook.match_against inc inc_ref b.bids sell_price_ok b.ctx with
    | none => none
    | some (inc2, bids2, c2) => some (inc2, { b with bids := bids2, ctx := c2 })

/-- `NewOrderRequest` (symbol and tif omitted; neither is read by the
book). -/
structure NewOrderRequest where
  id : Nat
  side : Side
  type : OrderType
  price : Int
  quantity : Nat
deriving DecidableEq, Repr

/-- `AmendRequest` (symbol omitted). -/
structure AmendRequest where
  order_id : Nat
  new_price : Int
  new_quantity : Nat
deriving DecidableEq, Repr

/-- The `Order` value built at the top of `add_order` from a request. -/
def order_of_request (c : MatchCtx) (req : NewOrderRequest) : Order :=
  { id := req.id
    sequence := c.next_sequence
    side := req.side
    type := req.type
    price := req.price
    quantity := req.quantity
    filled_qty := 0
    leaves_qty := req.quantity
    status := .New }

/-- `OrderBook::add_order`: allocate, index, match, then rest or cancel
the remainder according to the order type. -/
def OrderBook.add_order (b : OrderBook) (req : NewOrderRequest) :
    Option OrderBook :=
  let ref := b.ctx.arena.length
  let o := order_of_request b.ctx req
  let c1 := { b.ctx with
              arena := b.ctx.arena ++ [o]
              next_sequence := wadd b.ctx.next_sequence 1
              order_index := idx_insert b.ctx.order_index req.id ref }
  let b1 := { b with ctx := c1 }
  match b1.match_step o ref with
  | none => none
  | some (o2, b2) =>
      let b3 := { b2 with ctx := { b2.ctx with arena := b2.ctx.arena.set ref o2 } }
      if o2.leaves_qty = 0 then some b3
      else
        match o2.type with
        | .Limit => some (b3.rest_order ref o2)
        | _ =>
            let o3 := o2.cancel
            some { b3 with ctx := { b3.ctx with
                     arena := b3.ctx.arena.set ref o3
                     order_index := idx_erase b3.ctx.order_index o2.id } }

/-- `OrderBook::cancel_order`: id lookup, activity check, unlink, mark
cancelled, drop from the index. -/
def OrderBook.cancel_order (b : OrderBook) (id : Nat) :
    Option (OrderBook × Bool) :=
  match idx_lookup b.ctx.order_index id with
  | none => some (b, false)
  | some ref =>
      match b.ctx.arena.get? ref with
      | none => none
      | some o =>
          if !o.is_active then some (b, false)
          else
            let b1 := b.remove_from_book o ref
            let o2 := o.cancel
            some ({ b1 with ctx := { b1.ctx with
                      arena := b1.ctx.arena.set ref o2
                      order_index := idx_erase b1.ctx.order_index id } }, true)

/-- `OrderBook::amend_order`: priority-losing amend (price change or
quantity increase: unlink, overwrite, fresh sequence, re-match, re-rest),
priority-preserving quantity reduction, or no-op success. -/
def OrderBook.amend_order (b : OrderBook) (req : AmendRequest) :
    Option (OrderBook × Bool) :=
  match idx_lookup b.ctx.order_index req.order_id with
  | none => some (b, false)
  | some ref =>
      match b.ctx.arena.get? ref with
      | none => none
      | some o =>
          if !o.is_active then some (b, false)
          else
            let price_changed := (req.new_price != 0) && (req.new_price != o.price)
            let qty_increased := (req.new_quantity != 0) &&
              decide (o.leaves_qty < req.new_quantity)
            if price_changed || qty_increased then
              let b1 := b.remove_from_book o ref
              let o1 := { o with
                          price := if req.new_price != 0 then req.new_price else o.price }
              let o2 := if req.new_quantity != 0 then
                          { o1 with
                            quantity := req.new_quantity
                            leaves_qty := wsub req.new_quantity o.filled_qty }
                        else o1
              let o3 := { o2 with sequence := b1.ctx.next_sequence, status := .Amended }
              let b2 := { b1 with ctx := { b1.ctx with
                            next_sequence := wadd b1.ctx.next_sequence 1
                            arena := b1.ctx.arena.set ref o3 } }
              match b2.match_step o3 ref with
              | none => none
              | some (o4, b3) =>
                  let b4 := { b3 with ctx := { b3.ctx with
                                arena := b3.ctx.arena.set ref o4 } }
                  if (o4.leaves_qty != 0) && (o4.type == .Limit) then
                    some (b4.rest_order ref o4, true)
                  else some (b4, true)
            else if (req.new_quantity != 0) && decide (req.new_quantity < o.leaves_qty) then
              let reduction := o.leaves_qty - req.new_quantity
              let o1 := { o with
                          leaves_qty := req.new_quantity
                          quantity := wsub o.quantity reduction
                          status := .Amended }
              let b1 := { b with ctx := { b.ctx with arena := b.ctx.arena.set ref o1 } }
              let b2 :=
                if o.is_buy then
                  let r := side_reduce b1.bids o.price reduction
                  { b1 with bids := r.1
                            ctx := { b1.ctx with
                              sat_events := b1.ctx.sat_events + sat_count r.2 } }
                else
                  let r := side_reduce b1.asks o.price reduction
                  { b1 with asks := r.1
                            ctx := { b1.ctx with
                              sat_events := b1.ctx.sat_events + sat_count r.2 } }
              some (b2, true)
            else some (b, true)

/-- One request to a single book. -/
inductive Request where
  | newOrder (req : NewOrderRequest)
  | cancel (id : Nat)
  | amend (req : AmendRequest)
deriving DecidableEq, Repr

/-- Apply one request (result booleans discarded). -/
def apply_request (b : OrderBook) (r : Request) : Option OrderBook :=
  match r with
  | .newOrder req => b.add_order req
  | .cancel id => (b.cancel_order id).map Prod.fst
  | .amend req => (b.amend_order req).map Prod.fst

/-- Run a request sequence against a book. -/
def run_book (b : OrderBook) (rs : List Request) : Option OrderBook :=
  match rs with
  | [] => some b
  | r :: rest =>
      match apply_request b r with
      | none => none
      | some b2 => run_book b2 rest

/-- Whether executing `OrderBook::match` on `inc` reaches the iterator
declaration at the top of `match_against`
(`auto it = (incoming->is_buy()) ? contra_side.begin() : std::prev(contra_side.end());`)
with the `std::prev(contra_side.end())` arm chosen: the call is made
unless the FOK pre-check aborts, and that arm runs exactly for sell
aggressors. -/
def OrderBook.reaches_prev_end_init (b : OrderBook) (inc : Order) : Bool :=
  !(inc.type == .FOK && !(b.can_fill_completely inc)) && !inc.is_buy

/-- Whether that initializer decrements the end iterator of an *empty*
bid map (undefined behaviour for `std::map`). -/
def OrderBook.prev_end_on_empty_bids (b : OrderBook) (inc : Order) : Bool :=
  b.reaches_prev_end_init inc && b.bids.isEmpty

/-- The persisted counters of `MatchingEngine::EngineStats`
(`active_orders` and `symbols_active` are recomputed by `get_stats` and
not stored). -/
structure EngineStats where
  total_orders : Nat
  total_cancels : Nat
  total_amends : Nat
  total_trades : Nat
  total_volume : Nat
  total_rejects : Nat
deriving DecidableEq, Repr

/-- The multi-symbol facade `MatchingEngine`: a symbol-to-book map and
the counters.  Symbols are modelled as `String`. -/
structure MatchingEngine where
  books : List (String × OrderBook)
  stats : EngineStats
deriving DecidableEq, Repr

/-- A fresh engine with the given registered symbols (`add_symbol`). -/
def MatchingEngine.ofSymbols (syms : List String) : MatchingEngine :=
  { books := syms.map (fun s => (s, OrderBook.empty))
    stats := { total_orders := 0, total_cancels := 0, total_amends := 0,
               total_trades := 0, total_volume := 0, total_rejects := 0 } }

/-- `books_.find(sym)`. -/
def eng_find (books : List (String × OrderBook)) (sym : String) :
    Option OrderBook :=
  match books with
  | [] => none
  | (s, b) :: t => if s = sym then some b else eng_find t sym

/-- Store an updated book back under its symbol. -/
def eng_set (books : List (String × OrderBook)) (sym : String)
    (b : OrderBook) : List (String × OrderBook) :=
  match books with
  | [] => []
  | (s, b0) :: t => if s = sym then (s, b) :: t else (s, b0) :: eng_set t sym b

/-- The per-trade accounting of `MatchingEngine::on_trade`, applied to
the trades a delegated call emitted (the engine's trade callback fires
once per trade). -/
def eng_count_trades (st : EngineStats) (new_trades : List Trade) :
    EngineStats :=
  { st with
    total_trades := wadd st.total_trades new_trades.length
    total_volume := new_trades.foldl (fun a t => wadd a t.quantity) st.total_volume }

/-- `MatchingEngine::submit_order`: reject (counting it) when the symbol
has no book, otherwise count the order and delegate to `add_order`.  The
second component models the returned `Order*` (`none` = `nullptr`,
`some ref` = the arena slot of the new order). -/
def MatchingEngine.submit_order (e : MatchingEngine) (sym : String)
    (req : NewOrderRequest) : Option (MatchingEngine × Option Nat) :=
  match eng_find e.books sym with
  | none =>
      some ({ e with stats :=
        { e.stats with total_rejects := wadd e.stats.total_rejects 1 } }, none)
  | some b =>
      let ref := b.ctx.arena.length
      match b.add_order req with
      | none => none
      | some b2 =>
          let nt := b2.ctx.trades.drop b.ctx.trades.length
          let st1 := { e.stats with total_orders := wadd e.stats.total_orders 1 }
          some ({ books := eng_set e.books sym b2
                  stats := eng_count_trades st1 nt }, some ref)

/-- `MatchingEngine::cancel_order`: returns `false` without touching any
counter when the symbol has no book; otherwise delegates and counts a
success. -/
def MatchingEngine.cancel_order (e : MatchingEngine) (sym : String)
    (id : Nat) : Option (MatchingEngine × Bool) :=
  match eng_find e.books sym with
  | none => some (e, false)
  | some b =>
      match b.cancel_order id with
      | none => none
      | some (b2, success) =>
          let st1 := if success then
              { e.stats with total_cancels := wadd e.stats.total_cancels 1 }
            else e.stats
          some ({ books := eng_set e.books sym b2, stats := st1 }, success)

/-- `MatchingEngine::amend_order`: returns `false` without touching any
counter when the symbol has no book; otherwise delegates, counts a
success, and the engine's trade callback counts any trades the re-match
emitted. -/
def MatchingEngine.amend_order (e : MatchingEngine) (sym : String)
    (req : AmendRequest) : Option (MatchingEngine × Bool) :=
  match eng_find e.books sym with
  | none => some (e, false)
  | some b =>
      match b.amend_order req with
      | none => none
      | some (b2, success) =>
          let nt := b2.ctx.trades.drop b.ctx.trades.length
          let st1 := if success then
              { e.stats with total_amends := wadd e.stats.total_amends 1 }
            else e.stats
          some ({ books := eng_set e.books sym b2
                  stats := eng_count_trades st1 nt }, success)

/-! ## Concrete scenarios used by individual claims -/

/-- A buy limit order request. -/
def buyLimit (id : Nat) (p : Int) (q : Nat) : Request :=
  .newOrder { id := id, side := .Buy, type := .Limit, price := p, quantity := q }

/-- A sell limit order request. -/
def sellLimit (id : Nat) (p : Int) (q : Nat) : Request :=
  .newOrder { id := id, side := .Sell, type := .Limit, price := p, quantity := q }

/-- Scenario for C1: a resting buy limit order amended down (a
priority-preserving reduction, which sets status `Amended`), then
cancelled. -/
def c1_reqs : List Request :=
  [buyLimit 1 10000 100, .amend { order_id := 1, new_price := 0, new_quantity := 50 }]

/-- The book after the C1 scenario (total function; the run succeeds). -/
def c1_book : OrderBook := (run_book OrderBook.empty c1_reqs).getD OrderBook.empty

/-- Scenario for C2: a buy order partially filled to 90 of 100, then
amended to quantity 50, which is above its `leaves_qty` 10 (so the amend
is priority-losing) but below its `filled_qty` 90 (so
`leaves_qty = new_quantity - filled_qty` underflows). -/
def c2_reqs : List Request :=
  [sellLimit 1 100 90, buyLimit 2 100 100,
   .amend { order_id := 2, new_price := 0, new_quantity := 50 }]

/-- The book after the C2 scenario. -/
def c2_book : OrderBook := (run_book OrderBook.empty c2_reqs).getD OrderBook.empty

/-- Scenario for C3: ten buy limit orders id 1..10 at 10000 quantity 100
each, then one sell market order of quantity 300. -/
def c3_reqs : List Request :=
  ((List.range 10).map (fun i => buyLimit (i + 1) 10000 100)) ++
  [.newOrder { id := 100, side := .Sell, type := .Market, price := PRICE_MARKET,
               quantity := 300 }]

/-- The book after the first 1 requests of `c3_reqs`. -/
def c3_b1 : OrderBook :=
  { bids := [{ price := 10000, total_quantity := 100, order_count := 1, queue := [0] }],
    asks := [],
    ctx := { arena := [{ id := 1,
                         sequence := 1,
                         side := MicroExchange.Side.Buy,
                         type := MicroExchange.OrderType.Limit,
                         price := 10000,
                         quantity := 100,
                         filled_qty := 0,
                         leaves_qty := 100,
                         status := MicroExchange.OrderStatus.New }],
             order_index := [(1, 0)],
             next_sequence := 2,
             trade_count := 0,
             total_volume := 0,
             trades := [],
             sat_events := 0 } }

/-- The book after the first 2 requests of `c3_reqs`. -/
def c3_b2 : OrderBook :=
  { bids := [{ price := 10000, total_quantity := 200, order_count := 2, queue := [0, 1] }],
    asks := [],
    ctx := { arena := [{ id := 1,
                         sequence := 1,
                         side := MicroExchange.Side.Buy,
                         type := MicroExchange.OrderType.Limit,
                         price := 10000,
                         quantity := 100,
                         filled_qty := 0,
                         leaves_qty := 100,
                         status := MicroExchange.OrderStatus.New },
                       { id := 2,
                         sequence := 2,
                         side := MicroExchange.Side.Buy,
                         type := MicroExchange.OrderType.Limit,
                         price := 10000,
                         quantity := 100,
                         filled_qty := 0,
                         leaves_qty := 100,
                         status := MicroExchange.OrderStatus.New }],
             order_index := [(2, 1), (1, 0)],
             next_sequence := 3,
             trade_count := 0,
             total_volume := 0,
             trades := [],
             sat_events := 0 } }

/-- The book after the first 3 requests of `c3_reqs`. -/
def c3_b3 : OrderBook :=
  { bids := [{ price := 10000, total_quantity := 300, order_count := 3, queue := [0, 1, 2] }],
    asks := [],
    ctx := { arena := [{ id := 1,
                         sequence := 1,
                         side := MicroExchange.Side.Buy,
                         type := MicroExchange.OrderType.Limit,
                         price := 10000,
                         quantity := 100,
                         filled_qty := 0,
                         leaves_qty := 100,
                         status := MicroExchange.OrderStatus.New },
                       { id := 2,
                         sequence := 2,
                         side := MicroExchange.Side.Buy,
                         type := MicroExchange.OrderType.Limit,
                         price := 10000,
                         quantity := 100,
                         filled_qty := 0,
                         leaves_qty := 100,
                         status := MicroExchange.OrderStatus.New },
                       { id := 3,
                         sequence := 3,
                         side := MicroExchange.Side.Buy,
                         type := MicroExchange.OrderType.Limit,
                         price := 10000,
                         quantity := 100,
                         filled_qty := 0,
                         leaves_qty := 100,
                         status := MicroExchange.OrderStatus.New }],
             order_index := [(3, 2), (2, 1), (1, 0)],
             next_sequence := 4,
             trade_count := 0,
             total_volume := 0,
             trades := [],
             sat_events := 0 } }

/-- The book after the first 4 requests of `c3_reqs`. -/
def c3_b4 : OrderBook :=
  { bids := [{ price := 10000, total_quantity := 400, order_count := 4, queue := [0, 1, 2, 3] }],
    asks := [],
    ctx := { arena := [{ id := 1,
                         sequence := 1,
                         side := MicroExchange.Side.Buy,
                         type := MicroExchange.OrderType.Limit,
                         price := 10000,
                         quantity := 100,
                         filled_qty := 0,
                         leaves_qty := 100,
                         status := MicroExchange.OrderStatus.New },
                       { id := 2,
                         sequence := 2,
                         side := MicroExchange.Side.Buy,
                         type := MicroExchange.OrderType.Limit,
                         price := 10000,
                         quantity := 100,
                         filled_qty := 0,
                         leaves_qty := 100,
                         status := MicroExchange.OrderStatus.New },
                       { id := 3,
                         sequence := 3,
                         side := MicroExchange.Side.Buy,
                         type := MicroExchange.OrderType.Limit,
                         price := 10000,
                         quantity := 100,
                         filled_qty := 0,
                         leaves_qty := 100,
                         status := MicroExchange.OrderStatus.New },
                       { id := 4,
                         sequence := 4,
                         side := MicroExchange.Side.Buy,
                         type := MicroExchange.OrderType.Limit,
                         price := 10000,
                         quantity := 100,
                         filled_qty := 0,
                         leaves_qty := 100,
                         status := MicroExchange.OrderStatus.New }],
             order_index := [(4, 3), (3, 2), (2, 1), (1, 0)],
             next_sequence := 5,
             trade_count := 0,
             total_volume := 0,
             trades := [],
             sat_events := 0 } }

/-- The book after the first 5 requests of `c3_reqs`. -/
def c3_b5 : OrderBook :=
  { bids := [{ price := 10000, total_quantity := 500, order_count := 5, queue := [0, 1, 2, 3, 4] }],
    asks := [],
    ctx := { arena := [{ id := 1,
                         sequence := 1,
                         side := MicroExchange.Side.Buy,
                         type := MicroExchange.OrderType.Limit,
                         price := 10000,
                         quantity := 100,
                         filled_qty := 0,
                         leaves_qty := 100,
                         status := MicroExchange.OrderStatus.New },
                       { id := 2,
                         sequence := 2,
                         side := MicroExchange.Side.Buy,
                         type := MicroExchange.OrderType.Limit,
                         price := 10000,
                         quantity := 100,
                         filled_qty := 0,
                         leaves_qty := 100,
                         status := MicroExchange.OrderStatus.New },
                       { id := 3,
                         sequence := 3,
                         side := MicroExchange.Side.Buy,
                         type := MicroExchange.OrderType.Limit,
                         price := 10000,
                         quantity := 100,
                         filled_qty := 0,
                         leaves_qty := 100,
                         status := MicroExchange.OrderStatus.New },
                       { id := 4,
                         sequence := 4,
                         side := MicroExchange.Side.Buy,
                         type := MicroExchange.OrderType.Limit,
                         price := 10000,
                         quantity := 100,
                         filled_qty := 0,
                         leaves_qty := 100,
                         status := MicroExchange.OrderStatus.New },
                       { id := 5,
                         sequence := 5,
                         side := MicroExchange.Side.Buy,
                         type := MicroExchange.OrderType.Limit,
                         price := 10000,
                         quantity := 100,
                         filled_qty := 0,
                         leaves_qty := 100,
                         status := MicroExchange.OrderStatus.New }],
             order_index := [(5, 4), (4, 3), (3, 2), (2, 1), (1, 0)],
             next_sequence := 6,
             trade_count := 0,
             total_volume := 0,
             trades := [],
             sat_events := 0 } }

/-- The book after the first 6 requests of `c3_reqs`. -/
def c3_b6 : OrderBook :=
  { bids := [{ price := 10000, total_quantity := 600, order_count := 6, queue := [0, 1, 2, 3, 4, 5] }],
    asks := [],
    ctx := { arena := [{ id := 1,
                         sequence := 1,
                         side := MicroExchange.Side.Buy,
                         type := MicroExchange.OrderType.Limit,
                         price := 10000,
                         quantity := 100,
                         filled_qty := 0,
                         leaves_qty := 100,
                         status := MicroExchange.OrderStatus.New },
                       { id := 2,
                         sequence := 2,
                         side := MicroExchange.Side.Buy,
                         type := MicroExchange.OrderType.Limit,
                         price := 10000,
                         quantity := 100,
                         filled_qty := 0,
                         leaves_qty := 100,
                         status := MicroExchange.OrderStatus.New },
                       { id := 3,
                         sequence := 3,
                         side := MicroExchange.Side.Buy,
                         type := MicroExchange.OrderType.Limit,
                         price := 10000,
                         quantity := 100,
                         filled_qty := 0,
                         leaves_qty := 100,
                         status := MicroExchange.OrderStatus.New },
                       { id := 4,
                         sequence := 4,
                         side := MicroExchange.Side.Buy,
                         type := MicroExchange.OrderType.Limit,
                         price := 10000,
                         quantity := 100,
                         filled_qty := 0,
                         leaves_qty := 100,
                         status := MicroExchange.OrderStatus.New },
                       { id := 5,
                         sequence := 5,
                         side := MicroExchange.Side.Buy,
                         type := MicroExchange.OrderType.Limit,
                         price := 10000,
                         quantity := 100,
                         filled_qty := 0,
                         leaves_qty := 100,
                         status := MicroExchange.OrderStatus.New },
                       { id := 6,
                         sequence := 6,
                         side := MicroExchange.Side.Buy,
                         type := MicroExchange.OrderType.Limit,
                         price := 10000,
                         quantity := 100,
                         filled_qty := 0,
                         leaves_qty := 100,
                         status := MicroExchange.OrderStatus.New }],
             order_index := [(6, 5), (5, 4), (4, 3), (3, 2), (2, 1), (1, 0)],
             next_sequence := 7,
             trade_count := 0,
             total_volume := 0,
             trades := [],
             sat_events := 0 } }

/-- The book after the first 7 requests of `c3_reqs`. -/
def c3_b7 : OrderBook :=
  { bids := [{ price := 10000, total_quantity := 700, order_count := 7, queue := [0, 1, 2, 3, 4, 5, 6] }],
    asks := [],
    ctx := { arena := [{ id := 1,
                         sequence := 1,
                         side := MicroExchange.Side.Buy,
                         type := MicroExchange.OrderType.Limit,
                         price := 10000,
                         quantity := 100,
                         filled_qty := 0,
                         leaves_qty := 100,
                         status := MicroExchange.OrderStatus.New },
                       { id := 2,
                         sequence := 2,
                         side := MicroExchange.Side.Buy,
                         type := MicroExchange.OrderType.Limit,
                         price := 10000,
                         quantity := 100,
                         filled_qty := 0,
                         leaves_qty := 100,
                         status := MicroExchange.OrderStatus.New },
                       { id := 3,
                         sequence := 3,
                         side := MicroExchange.Side.Buy,
                         type := MicroExchange.OrderType.Limit,
                         price := 10000,
                         quantity := 100,
                         filled_qty := 0,
                         leaves_qty := 100,
                         status := MicroExchange.OrderStatus.New },
                       { id := 4,
                         sequence := 4,
                         side := MicroExchange.Side.Buy,
                         type := MicroExchange.OrderType.Limit,
                         price := 10000,
                         quantity := 100,
                         filled_qty := 0,
                         leaves_qty := 100,
                         status := MicroExchange.OrderStatus.New },
                       { id := 5,
                         sequence := 5,
                         side := MicroExchange.Side.Buy,
                         type := MicroExchange.OrderType.Limit,
                         price := 10000,
                         quantity := 100,
                         filled_qty := 0,
                         leaves_qty := 100,
                         status := MicroExchange.OrderStatus.New },
                       { id := 6,
                         sequence := 6,
                         side := MicroExchange.Side.Buy,
                         type := MicroExchange.OrderType.Limit,
                         price := 10000,
                         quantity := 100,
                         filled_qty := 0,
                         leaves_qty := 100,
                         status := MicroExchange.OrderStatus.New },
                       { id := 7,
                         sequence := 7,
                         side := MicroExchange.Side.Buy,
                         type := MicroExchange.OrderType.Limit,
                         price := 10000,
                         quantity := 100,
                         filled_qty := 0,
                         leaves_qty := 100,
                         status := MicroExchange.OrderStatus.New }],
             order_index := [(7, 6), (6, 5), (5, 4), (4, 3), (3, 2), (2, 1), (1, 0)],
             next_sequence := 8,
             trade_count := 0,
             total_volume := 0,
             trades := [],
             sat_events := 0 } }

/-- The book after the first 8 requests of `c3_reqs`. -/
def c3_b8 : OrderBook :=
  { bids := [{ price := 10000, total_quantity := 800, order_count := 8, queue := [0, 1, 2, 3, 4, 5, 6, 7] }],
    asks := [],
    ctx := { arena := [{ id := 1,
                         sequence := 1,
                         side := MicroExchange.Side.Buy,
                         type := MicroExchange.OrderType.Limit,
                         price := 10000,
                         quantity := 100,
                         filled_qty := 0,
                         leaves_qty := 100,
                         status := MicroExchange.OrderStatus.New },
                       { id := 2,
                         sequence := 2,
                         side := MicroExchange.Side.Buy,
                         type := MicroExchange.OrderType.Limit,
                         price := 10000,
                         quantity := 100,
                         filled_qty := 0,
                         leaves_qty := 100,
                         status := MicroExchange.OrderStatus.New },
                       { id := 3,
                         sequence := 3,
                         side := MicroExchange.Side.Buy,
                         type := MicroExchange.OrderType.Limit,
                         price := 10000,
                         quantity := 100,
                         filled_qty := 0,
                         leaves_qty := 100,
                         status := MicroExchange.OrderStatus.New },
                       { id := 4,
                         sequence := 4,
                         side := MicroExchange.Side.Buy,
                         type := MicroExchange.OrderType.Limit,
                         price := 10000,
                         quantity := 100,
                         filled_qty := 0,
                         leaves_qty := 100,
                         status := MicroExchange.OrderStatus.New },
                       { id := 5,
                         sequence := 5,
                         side := MicroExchange.Side.Buy,
                         type := MicroExchange.OrderType.Limit,
                         price := 10000,
                         quantity := 100,
                         filled_qty := 0,
                         leaves_qty := 100,
                         status := MicroExchange.OrderStatus.New },
                       { id := 6,
                         sequence := 6,
                         side := MicroExchange.Side.Buy,
                         type := MicroExchange.OrderType.Limit,
                         price := 10000,
                         quantity := 100,
                         filled_qty := 0,
                         leaves_qty := 100,
                         status := MicroExchange.OrderStatus.New },
                       { id := 7,
                         sequence := 7,
                         side := MicroExchange.Side.Buy,
                         type := MicroExchange.OrderType.Limit,
                         price := 10000,
                         quantity := 100,
                         filled_qty := 0,
                         leaves_qty := 100,
                         status := MicroExchange.OrderStatus.New },
                       { id := 8,
                         sequence := 8,
                         side := MicroExchange.Side.Buy,
                         type := MicroExchange.OrderType.Limit,
                         price := 10000,
                         quantity := 100,
                         filled_qty := 0,
                         leaves_qty := 100,
                         status := MicroExchange.OrderStatus.New }],
             order_index := [(8, 7), (7, 6), (6, 5), (5, 4), (4, 3), (3, 2), (2, 1), (1, 0)],
             next_sequence := 9,
             trade_count := 0,
             total_volume := 0,
             trades := [],
             sat_events := 0 } }

/-- The book after the first 9 requests of `c3_reqs`. -/
def c3_b9 : OrderBook :=
  { bids := [{ price := 10000, total_quantity := 900, order_count := 9, queue := [0, 1, 2, 3, 4, 5, 6, 7, 8] }],
    asks := [],
    ctx := { arena := [{ id := 1,
                         sequence := 1,
                         side := MicroExchange.Side.Buy,
                         type := MicroExchange.OrderType.Limit,
                         price := 10000,
                         quantity := 100,
                         filled_qty := 0,
                         leaves_qty := 100,
                         status := MicroExchange.OrderStatus.New },
                       { id := 2,
                         sequence := 2,
                         side := MicroExchange.Side.Buy,
                         type := MicroExchange.OrderType.Limit,
                         price := 10000,
                         quantity := 100,
                         filled_qty := 0,
                         leaves_qty := 100,
                         status := MicroExchange.OrderStatus.New },
                       { id := 3,
                         sequence := 3,
                         side := MicroExchange.Side.Buy,
                         type := MicroExchange.OrderType.Limit,
                         price := 10000,
                         quantity := 100,
                         filled_qty := 0,
                         leaves_qty := 100,
                         status := MicroExchange.OrderStatus.New },
                       { id := 4,
                         sequence := 4,
                         side := MicroExchange.Side.Buy,
                         type := MicroExchange.OrderType.Limit,
                         price := 10000,
                         quantity := 100,
                         filled_qty := 0,
                         leaves_qty := 100,
                         status := MicroExchange.OrderStatus.New },
                       { id := 5,
                         sequence := 5,
                         side := MicroExchange.Side.Buy,
                         type := MicroExchange.OrderType.Limit,
                         price := 10000,
                         quantity := 100,
                         filled_qty := 0,
                         leaves_qty := 100,
                         status := MicroExchange.OrderStatus.New },
                       { id := 6,
                         sequence := 6,
                         side := MicroExchange.Side.Buy,
                         type := MicroExchange.OrderType.Limit,
                         price := 10000,
                         quantity := 100,
                         filled_qty := 0,
                         leaves_qty := 100,
                         status := MicroExchange.OrderStatus.New },
                       { id := 7,
                         sequence := 7,
                         side := MicroExchange.Side.Buy,
                         type := MicroExchange.OrderType.Limit,
                         price := 10000,
                         quantity := 100,
                         filled_qty := 0,
                         leaves_qty := 100,
                         status := MicroExchange.OrderStatus.New },
                       { id := 8,
                         sequence := 8,
                         side := MicroExchange.Side.Buy,
                         type := MicroExchange.OrderType.Limit,
                         price := 10000,
                         quantity := 100,
                         filled_qty := 0,
                         leaves_qty := 100,
                         status := MicroExchange.OrderStatus.New },
                       { id := 9,
                         sequence := 9,
                         side := MicroExchange.Side.Buy,
                         type := MicroExchange.OrderType.Limit,
                         price := 10000,
                         quantity := 100,
                         filled_qty := 0,
                         leaves_qty := 100,
                         status := MicroExchange.OrderStatus.New }],
             order_index := [(9, 8), (8, 7), (7, 6), (6, 5), (5, 4), (4, 3), (3, 2), (2, 1), (1, 0)],
             next_sequence := 10,
             trade_count := 0,
             total_volume := 0,
             trades := [],
             sat_events := 0 } }

/-- The book after the first 10 requests of `c3_reqs`. -/
def c3_b10 : OrderBook :=
  { bids := [{ price := 10000, total_quantity := 1000, order_count := 10, queue := [0, 1, 2, 3, 4, 5, 6, 7, 8, 9] }],
    asks := [],
    ctx := { arena := [{ id := 1,
                         sequence := 1,
                         side := MicroExchange.Side.Buy,
                         type := MicroExchange.OrderType.Limit,
                         price := 10000,
                         quantity := 100,
                         filled_qty := 0,
                         leaves_qty := 100,
                         status := MicroExchange.OrderStatus.New },
                       { id := 2,
                         sequence := 2,
                         side := MicroExchange.Side.Buy,
                         type := MicroExchange.OrderType.Limit,
                         price := 10000,
                         quantity := 100,
                         filled_qty := 0,
                         leaves_qty := 100,
                         status := MicroExchange.OrderStatus.New },
                       { id := 3,
                         sequence := 3,
                         side := MicroExchange.Side.Buy,
                         type := MicroExchange.OrderType.Limit,
                         price := 10000,
                         quantity := 100,
                         filled_qty := 0,
                         leaves_qty := 100,
                         status := MicroExchange.OrderStatus.New },
                       { id := 4,
                         sequence := 4,
                         side := MicroExchange.Side.Buy,
                         type := MicroExchange.OrderType.Limit,
                         price := 10000,
                         quantity := 100,
                         filled_qty := 0,
                         leaves_qty := 100,
                         status := MicroExchange.OrderStatus.New },
                       { id := 5,
                         sequence := 5,
                         side := MicroExchange.Side.Buy,
                         type := MicroExchange.OrderType.Limit,
                         price := 10000,
                         quantity := 100,
                         filled_qty := 0,
                         leaves_qty := 100,
                         status := MicroExchange.OrderStatus.New },
                       { id := 6,
                         sequence := 6,
                         side := MicroExchange.Side.Buy,
                         type := MicroExchange.OrderType.Limit,
                         price := 10000,
                         quantity := 100,
                         filled_qty := 0,
                         leaves_qty := 100,
                         status := MicroExchange.OrderStatus.New },
                       { id := 7,
                         sequence := 7,
                         side := MicroExchange.Side.Buy,
                         type := MicroExchange.OrderType.Limit,
                         price := 10000,
                         quantity := 100,
                         filled_qty := 0,
                         leaves_qty := 100,
                         status := MicroExchange.OrderStatus.New },
                       { id := 8,
                         sequence := 8,
                         side := MicroExchange.Side.Buy,
                         type := MicroExchange.OrderType.Limit,
                         price := 10000,
                         quantity := 100,
                         filled_qty := 0,
                         leaves_qty := 100,
                         status := MicroExchange.OrderStatus.New },
                       { id := 9,
                         sequence := 9,
                         side := MicroExchange.Side.Buy,
                         type := MicroExchange.OrderType.Limit,
                         price := 10000,
                         quantity := 100,
                         filled_qty := 0,
                         leaves_qty := 100,
                         status := MicroExchange.OrderStatus.New },
                       { id := 10,
                         sequence := 10,
                         side := MicroExchange.Side.Buy,
                         type := MicroExchange.OrderType.Limit,
                         price := 10000,
                         quantity := 100,
                         filled_qty := 0,
                         leaves_qty := 100,
                         status := MicroExchange.OrderStatus.New }],
             order_index := [(10, 9), (9, 8), (8, 7), (7, 6), (6, 5), (5, 4), (4, 3), (3, 2), (2, 1), (1, 0)],
             next_sequence := 11,
             trade_count := 0,
             total_volume := 0,
             trades := [],
             sat_events := 0 } }

/-- The book after the first 11 requests of `c3_reqs`. -/
def c3_b11 : OrderBook :=
  { bids := [{ price := 10000, total_quantity := 700, order_count := 7, queue := [3, 4, 5, 6, 7, 8, 9] }],
    asks := [],
    ctx := { arena := [{ id := 1,
                         sequence := 1,
                         side := MicroExchange.Side.Buy,
                         type := MicroExchange.OrderType.Limit,
                         price := 10000,
                         quantity := 100,
                         filled_qty := 100,
                         leaves_qty := 0,
                         status := MicroExchange.OrderStatus.Filled },
                       { id := 2,
                         sequence := 2,
                         side := MicroExchange.Side.Buy,
                         type := MicroExchange.OrderType.Limit,
                         price := 10000,
                         quantity := 100,
                         filled_qty := 100,
                         leaves_qty := 0,
                         status := MicroExchange.OrderStatus.Filled },
                       { id := 3,
                         sequence := 3,
                         side := MicroExchange.Side.Buy,
                         type := MicroExchange.OrderType.Limit,
                         price := 10000,
                         quantity := 100,
                         filled_qty := 100,
                         leaves_qty := 0,
                         status := MicroExchange.OrderStatus.Filled },
                       { id := 4,
                         sequence := 4,
                         side := MicroExchange.Side.Buy,
                         type := MicroExchange.OrderType.Limit,
                         price := 10000,
                         quantity := 100,
                         filled_qty := 0,
                         leaves_qty := 100,
                         status := MicroExchange.OrderStatus.New },
                       { id := 5,
                         sequence := 5,
                         side := MicroExchange.Side.Buy,
                         type := MicroExchange.OrderType.Limit,
                         price := 10000,
                         quantity := 100,
                         filled_qty := 0,
                         leaves_qty := 100,
                         status := MicroExchange.OrderStatus.New },
                       { id := 6,
                         sequence := 6,
                         side := MicroExchange.Side.Buy,
                         type := MicroExchange.OrderType.Limit,
                         price := 10000,
                         quantity := 100,
                         filled_qty := 0,
                         leaves_qty := 100,
                         status := MicroExchange.OrderStatus.New },
                       { id := 7,
                         sequence := 7,
                         side := MicroExchange.Side.Buy,
                         type := MicroExchange.OrderType.Limit,
                         price := 10000,
                         quantity := 100,
                         filled_qty := 0,
                         leaves_qty := 100,
                         status := MicroExchange.OrderStatus.New },
                       { id := 8,
                         sequence := 8,
                         side := MicroExchange.Side.Buy,
                         type := MicroExchange.OrderType.Limit,
                         price := 10000,
                         quantity := 100,
                         filled_qty := 0,
                         leaves_qty := 100,
                         status := MicroExchange.OrderStatus.New },
                       { id := 9,
                         sequence := 9,
                         side := MicroExchange.Side.Buy,
                         type := MicroExchange.OrderType.Limit,
                         price := 10000,
                         quantity := 100,
                         filled_qty := 0,
                         leaves_qty := 100,
                         status := MicroExchange.OrderStatus.New },
                       { id := 10,
                         sequence := 10,
                         side := MicroExchange.Side.Buy,
                         type := MicroExchange.OrderType.Limit,
                         price := 10000,
                         quantity := 100,
                         filled_qty := 0,
                         leaves_qty := 100,
                         status := MicroExchange.OrderStatus.New },
                       { id := 100,
                         sequence := 11,
                         side := MicroExchange.Side.Sell,
                         type := MicroExchange.OrderType.Market,
                         price := 0,
                         quantity := 300,
                         filled_qty := 300,
                         leaves_qty := 0,
                         status := MicroExchange.OrderStatus.Filled }],
             order_index := [(100, 10), (10, 9), (9, 8), (8, 7), (7, 6), (6, 5), (5, 4), (4, 3)],
             next_sequence := 15,
             trade_count := 3,
             total_volume := 300,
             trades := [{ sequence := 12,
                          buy_order_id := 1,
                          sell_order_id := 100,
                          price := 10000,
                          quantity := 100,
                          aggressor := MicroExchange.Side.Sell,
                          buy_ref := 0,
                          sell_ref := 10 },
                        { sequence := 13,
                          buy_order_id := 2,
                          sell_order_id := 100,
                          price := 10000,
                          quantity := 100,
                          aggressor := MicroExchange.Side.Sell,
                          buy_ref := 1,
                          sell_ref := 10 },
                        { sequence := 14,
                          buy_order_id := 3,
                          sell_order_id := 100,
                          price := 10000,
                          quantity := 100,
                          aggressor := MicroExchange.Side.Sell,
                          buy_ref := 2,
                          sell_ref := 10 }],
             sat_events := 0 } }

/-- Scenario for C4's counterexample: bids at 90 and 100 (100 each);
a sell FOK at price 100 for 100 is fully coverable by the bid at 100,
yet `can_fill_completely` walks the bid map in ascending price order and
breaks at the non-crossable bid 90. -/
def c4_reqs : List Request :=
  [buyLimit 1 90 100, buyLimit 2 100 100,
   .newOrder { id := 3, side := .Sell, type := .FOK, price := 100, quantity := 100 }]

/-- The book after the C4 scenario. -/
def c4_book : OrderBook := (run_book OrderBook.empty c4_reqs).getD OrderBook.empty

/-- The book before the C4 scenario's FOK order (the two resting bids). -/
def c4_book_before : OrderBook :=
  (run_book OrderBook.empty [buyLimit 1 90 100, buyLimit 2 100 100]).getD OrderBook.empty

/-- The sell request used for C10. -/
def c10_req : NewOrderRequest :=
  { id := 1, side := .Sell, type := .Limit, price := 100, quantity := 10 }

/-- A small crossing scenario used by C9's witness. -/
def c9_reqs : List Request := [buyLimit 5 100 10, sellLimit 6 100 10]

/-- The book after the C9 witness scenario. -/
def c9_book : OrderBook := (run_book OrderBook.empty c9_reqs).getD OrderBook.empty

/-- Sum of `leaves_qty` over the orders linked in a level's queue, read
from an arena. -/
def queue_leaves_sum (arena : List Order) (q : List Nat) : Nat :=
  match q with
  | [] => 0
  | r :: t => (match arena.get? r with | some o => o.leaves_qty | none => 0)
      + queue_leaves_sum arena t

def c5_reqs : List Request := [buyLimit 21 100 10, sellLimit 22 105 10]

def c5_book : OrderBook := (run_book OrderBook.empty c5_reqs).getD OrderBook.empty

/-- Aggregate exactness of one price level: the cached `total_quantity`
is exactly the sum of `leaves_qty` over the linked orders, the cached
`order_count` is exactly the queue length, both below their machine
moduli, refs are valid arena slots without duplicates, and every linked
order has positive leaves. -/
def LevelWF (arena : List Order) (l : PriceLevel) : Prop :=
  l.total_quantity = queue_leaves_sum arena l.queue ∧
  l.order_count = l.queue.length ∧
  l.queue.length < U32 ∧
  queue_leaves_sum arena l.queue < U64 ∧
  l.queue.Nodup ∧
  ∀ r ∈ l.queue, r < arena.length ∧
    ∀ o2 ∈ arena.get? r, 0 < o2.leaves_qty

/-- Pairwise disjointness of the queues of a list of levels. -/
def LevelsDisjoint (lvls : List PriceLevel) : Prop :=
  List.Pairwise (fun l1 l2 => ∀ r ∈ l1.queue, r ∉ l2.queue) lvls

/-- Aggregate exactness of a whole book: every level on both sides is
exact and no order is linked twice. -/
def WFAgg (b : OrderBook) : Prop :=
  (∀ l ∈ b.bids ++ b.asks, LevelWF b.ctx.arena l) ∧
  LevelsDisjoint (b.bids ++ b.asks)

/-- A side map is sorted when consecutive levels satisfy the side's
insertion order (bids strictly descending, asks strictly ascending by
price). -/
def SortedSide (before : Int → Price → Bool) (s : List PriceLevel) : Prop :=
  List.Pairwise (fun a b => before a b = true) (s.map (fun l => l.price))

/-- The no-crossed-book property on the two best levels: the price at
the head of the bid list (the greatest bid) is below the price at the
head of the ask list (the least ask) whenever both exist. -/
def NoCross (b : OrderBook) : Prop :=
  ∀ pb ∈ (b.bids.map (fun l => l.price)).head?,
    ∀ pa ∈ (b.asks.map (fun l => l.price)).head?, pb < pa

/-- The structural well-formedness of a book's sides used by the
no-crossed-book proof: both maps sorted and not crossed. -/
def WFSides (b : OrderBook) : Prop :=
  SortedSide bid_before b.bids ∧ SortedSide ask_before b.asks ∧ NoCross b

/-- The crossable depth ahead of an aggressor: the sum of cached level
totals over the longest prefix of the contra side passing the price
test. -/
def crossable_sum (p : Int) (price_ok : Int → Price → Bool) :
    List PriceLevel → Nat
  | [] => 0
  | l :: rest =>
      if price_ok p l.price then
        l.total_quantity + crossable_sum p price_ok rest
      else 0

/-- All arena refs linked in a list of levels. -/
def levels_refs : List PriceLevel → List Nat
  | [] => []
  | l :: rest => l.queue ++ levels_refs rest

/-- Sum of cached `total_quantity` over a list of levels. -/
def levels_total : List PriceLevel → Nat
  | [] => 0
  | l :: rest => l.total_quantity + levels_total rest

/-- Sum of queue lengths over a list of levels. -/
def levels_count : List PriceLevel → Nat
  | [] => 0
  | l :: rest => l.queue.length + levels_count rest

/-- The FOK request shared by both parts of the C4 witness. -/
def c4w_fok_req : NewOrderRequest :=
  { id := 31, side := Side.Buy, type := OrderType.FOK, price := 100, quantity := 10 }

/-- A resting sell order for the C4 witness book. -/
def c4w_resting : Order :=
  { id := 7, sequence := 1, side := Side.Sell, type := OrderType.Limit,
    price := 100, quantity := 10, filled_qty := 0, leaves_qty := 10,
    status := OrderStatus.New }

def c4w_arena : List Order := [c4w_resting]

def c4w_level : PriceLevel :=
  { price := 100, total_quantity := 10, order_count := 1, queue := [0] }

/-- A one-ask book fully covering the C4 witness FOK buy. -/
def c4w_book : OrderBook :=
  { bids := [], asks := [c4w_level],
    ctx := { arena := c4w_arena, order_index := [(7, 0)], next_sequence := 2,
             trade_count := 0, total_volume := 0, trades := [], sat_events := 0 } }

/-! ## Claim theorems -/

/-- Unfolding one step of `run_book`. -/
theorem run_book_cons (b b2 : OrderBook) (r : Request) (rs : List Request)
    (h1 : apply_request b r = some b2) :
    run_book b (r :: rs) = run_book b2 rs := by
  simp only [run_book, h1]

theorem wsub_self (a : Nat) : wsub a a = 0 := by
  unfold wsub
  have h1 : a % U64 ≤ a := Nat.mod_le _ _
  have h2 : a + U64 - a % U64 = U64 + (a - a % U64) := by omega
  have h3 : a - a % U64 = U64 * (a / U64) := by
    have := Nat.mod_add_div a U64
    omega
  rw [h2, h3]
  simp [Nat.add_mul_mod_self_left]

theorem PriceLevel.pop_front_price (l : PriceLevel) (x : Nat) :
    (l.pop_front x).price = l.price := by
  unfold PriceLevel.pop_front
  split <;> rfl

theorem PriceLevel.reduce_quantity_queue (l : PriceLevel) (q : Nat) :
    (l.reduce_quantity q).1.queue = l.queue := by
  unfold PriceLevel.reduce_quantity
  split <;> rfl

theorem PriceLevel.reduce_quantity_price (l : PriceLevel) (q : Nat) :
    (l.reduce_quantity q).1.price = l.price := by
  unfold PriceLevel.reduce_quantity
  split <;> rfl

theorem PriceLevel.reduce_quantity_count (l : PriceLevel) (q : Nat) :
    (l.reduce_quantity q).1.order_count = l.order_count := by
  unfold PriceLevel.reduce_quantity
  split <;> rfl

/-- Fields of the incoming order and the level's price are unchanged by
the inner FIFO walk. -/
theorem match_level_go_fields (inc_ref : Nat) (q : List Nat) (inc : Order)
    (l : PriceLevel) (c : MatchCtx) (inc2 : Order) (l2 : PriceLevel) (c2 : MatchCtx)
    (h : match_level_go inc_ref q inc l c = some (inc2, l2, c2)) :
    inc2.price = inc.price ∧ inc2.side = inc.side ∧ inc2.type = inc.type ∧
    inc2.id = inc.id ∧ inc2.quantity = inc.quantity ∧ l2.price = l.price := by
  induction q generalizing inc l c with
  | nil =>
      unfold match_level_go at h
      split at h
      · exact ⟨by simp_all, by simp_all, by simp_all, by simp_all, by simp_all, by simp_all⟩
      · split at h
        · exact ⟨by simp_all, by simp_all, by simp_all, by simp_all, by simp_all, by simp_all⟩
        · exact absurd h (by simp)
  | cons rh qt ih =>
      unfold match_level_go at h
      split at h
      · exact ⟨by simp_all, by simp_all, by simp_all, by simp_all, by simp_all, by simp_all⟩
      · split at h
        · exact ⟨by simp_all, by simp_all, by simp_all, by simp_all, by simp_all, by simp_all⟩
        · dsimp only at h
          split at h
          · exact absurd h (by simp)
          next r rest hq =>
            split at h
            · exact absurd h (by simp)
            next resting harena =>
              split at h
              · have := ih _ _ _ h
                refine ⟨?_, ?_, ?_, ?_, ?_, ?_⟩ <;>
                  simp only [this.1, this.2.1, this.2.2.1, this.2.2.2.1,
                    this.2.2.2.2.1, this.2.2.2.2.2, Order.fill,
                    PriceLevel.pop_front_price, PriceLevel.reduce_quantity_price]
              · have h' := Option.some.inj h
                simp only [Prod.mk.injEq] at h'
                obtain ⟨h1, h2, h3⟩ := h'
                subst h1
                subst h2
                exact ⟨rfl, rfl, rfl, rfl, rfl, PriceLevel.reduce_quantity_price _ _⟩

/-- After the inner FIFO walk, either the incoming order is exhausted or
the level reports empty. -/
theorem match_level_go_post (inc_ref : Nat) (q : List Nat) (inc : Order)
    (l : PriceLevel) (c : MatchCtx) (inc2 : Order) (l2 : PriceLevel) (c2 : MatchCtx)
    (h : match_level_go inc_ref q inc l c = some (inc2, l2, c2)) :
    inc2.leaves_qty = 0 ∨ l2.order_count = 0 := by
  induction q generalizing inc l c with
  | nil =>
      unfold match_level_go at h
      split at h
      · left; simp_all
      · split at h
        · right; simp_all
        · exact absurd h (by simp)
  | cons rh qt ih =>
      unfold match_level_go at h
      split at h
      · left; simp_all
      · split at h
        · right; simp_all
        · dsimp only at h
          split at h
          · exact absurd h (by simp)
          next r rest hq =>
            split at h
            · exact absurd h (by simp)
            next resting harena =>
              split at h
              · exact ih _ _ _ h
              next hnotfull =>
                have h' := Option.some.inj h
                simp only [Prod.mk.injEq] at h'
                obtain ⟨h1, h2, h3⟩ := h'
                subst h1
                left
                have hmin : min inc.leaves_qty resting.leaves_qty = inc.leaves_qty := by
                  rcases Nat.le_total inc.leaves_qty resting.leaves_qty with hle | hle
                  · exact Nat.min_eq_left hle
                  · exfalso
                    apply hnotfull
                    have hr : min inc.leaves_qty resting.leaves_qty = resting.leaves_qty :=
                      Nat.min_eq_right hle
                    simp only [Order.fill, hr, wsub_self]
                simp only [Order.fill, hmin, wsub_self]

/-- Shape of `match_against`: the contra side loses levels only from the
best end (its price list ends up a suffix), the incoming order's terms
are unchanged, and if the incoming order still has leaves and a contra
level remains, the price test failed at the new best level. -/
theorem match_against_shape (inc : Order) (inc_ref : Nat) (contra : List PriceLevel)
    (pok : Int → Price → Bool) (c : MatchCtx) (inc2 : Order)
    (contra2 : List PriceLevel) (c2 : MatchCtx)
    (h : OrderBook.match_against inc inc_ref contra pok c = some (inc2, contra2, c2)) :
    (contra2.map (fun l => l.price)) <:+ (contra.map (fun l => l.price)) ∧
    inc2.price = inc.price ∧ inc2.side = inc.side ∧ inc2.type = inc.type ∧
    inc2.id = inc.id ∧ inc2.quantity = inc.quantity ∧
    (∀ lh, contra2.head? = some lh → inc2.leaves_qty ≠ 0 →
      pok inc.price lh.price = false) := by
  induction contra generalizing inc c with
  | nil =>
      unfold OrderBook.match_against at h
      have h' := Option.some.inj h
      simp only [Prod.mk.injEq] at h'
      obtain ⟨h1, h2, h3⟩ := h'
      subst h1
      subst h2
      exact ⟨List.suffix_refl _, rfl, rfl, rfl, rfl, rfl, by intro lh hlh; simp at hlh⟩
  | cons l rest ih =>
      unfold OrderBook.match_against at h
      split at h
      next hzero =>
        have h' := Option.some.inj h
        simp only [Prod.mk.injEq] at h'
        obtain ⟨h1, h2, h3⟩ := h'
        subst h1
        subst h2
        exact ⟨List.suffix_refl _, rfl, rfl, rfl, rfl, rfl,
          fun lh hlh hne => absurd hzero hne⟩
      next hzero =>
        split at h
        next hpok =>
          have h' := Option.some.inj h
          simp only [Prod.mk.injEq] at h'
          obtain ⟨h1, h2, h3⟩ := h'
          subst h1
          subst h2
          refine ⟨List.suffix_refl _, rfl, rfl, rfl, rfl, rfl, ?_⟩
          intro lh hlh hne
          simp only [List.head?_cons, Option.some.injEq] at hlh
          subst hlh
          exact Bool.not_eq_true _ ▸ (by simpa using hpok)
        next hpok =>
          split at h
          · exact absurd h (by simp)
          next inc3 l3 c3 hlevel =>
            have hf := match_level_go_fields inc_ref l.queue inc l c inc3 l3 c3 hlevel
            split at h
            next hcount =>
              have ihh := ih inc3 c3 h
              refine ⟨?_, ?_, ?_, ?_, ?_, ?_, ?_⟩
              · exact ihh.1.trans (List.suffix_cons _ _)
              · exact ihh.2.1.trans hf.1
              · exact ihh.2.2.1.trans hf.2.1
              · exact ihh.2.2.2.1.trans hf.2.2.1
              · exact ihh.2.2.2.2.1.trans hf.2.2.2.1
              · exact ihh.2.2.2.2.2.1.trans hf.2.2.2.2.1
              · intro lh hlh hne
                have := ihh.2.2.2.2.2.2 lh hlh hne
                rwa [hf.1] at this
            next hcount =>
              have h' := Option.some.inj h
              simp only [Prod.mk.injEq] at h'
              obtain ⟨h1, h2, h3⟩ := h'
              subst h1
              subst h2
              refine ⟨?_, hf.1, hf.2.1, hf.2.2.1, hf.2.2.2.1, hf.2.2.2.2.1, ?_⟩
              · simp only [List.map_cons, hf.2.2.2.2.2]
                exact List.suffix_refl _
              · intro lh hlh hne
                simp only [List.head?_cons, Option.some.injEq] at hlh
                subst hlh
                rcases match_level_go_post inc_ref l.queue inc l c inc3 l3 c3 hlevel with
                  hz | hcz
                · exact absurd hz hne
                · exact absurd hcz hcount

theorem PriceLevel.push_back_price (l : PriceLevel) (ref : Nat) (lv : Nat) :
    (l.push_back ref lv).price = l.price := rfl

theorem PriceLevel.remove_price (l : PriceLevel) (ref : Nat) (lv : Nat) :
    (l.remove ref lv).price = l.price := rfl

/-- Every price in the side after `side_insert_push` is the inserted
price or one already present. -/
theorem side_insert_push_prices (s : List PriceLevel) (before : Int → Price → Bool)
    (p : Int) (ref : Nat) (lv : Nat) :
    ∀ x ∈ (side_insert_push s before p ref lv).map (fun l => l.price),
      x = p ∨ x ∈ s.map (fun l => l.price) := by
  induction s with
  | nil =>
      intro x hx
      simp [side_insert_push, PriceLevel.push_back, PriceLevel.mk0] at hx
      exact Or.inl hx
  | cons l rest ih =>
      intro x hx
      unfold side_insert_push at hx
      split at hx
      next heq =>
        simp only [List.map_cons, List.mem_cons, PriceLevel.push_back_price] at hx
        rcases hx with hx | hx
        · exact Or.inr (by simp [hx])
        · exact Or.inr (by simp [hx])
      next heq =>
        split at hx
        · simp only [List.map_cons, List.mem_cons, PriceLevel.push_back_price] at hx
          rcases hx with hx | hx
          · exact Or.inl (by simpa [PriceLevel.mk0] using hx)
          · exact Or.inr (by simpa using hx)
        · simp only [List.map_cons, List.mem_cons] at hx
          rcases hx with hx | hx
          · exact Or.inr (by simp [hx])
          · rcases ih x hx with h1 | h1
            · exact Or.inl h1
            · exact Or.inr (by simp [h1])

/-- `side_insert_push` keeps a side sorted, for a strict total insertion
order. -/
theorem side_insert_push_sorted (s : List PriceLevel) (before : Int → Price → Bool)
    (p : Int) (ref : Nat) (lv : Nat)
    (htrans : ∀ a b c2, before a b = true → before b c2 = true → before a c2 = true)
    (htot : ∀ a b, a ≠ b → before a b = false → before b a = true)
    (hs : SortedSide before s) :
    SortedSide before (side_insert_push s before p ref lv) := by
  induction s with
  | nil =>
      simp [SortedSide, side_insert_push, PriceLevel.push_back, PriceLevel.mk0]
  | cons l rest ih =>
      unfold SortedSide at hs
      simp only [List.map_cons, List.pairwise_cons] at hs
      obtain ⟨hl, hrest⟩ := hs
      unfold side_insert_push
      split
      next heq =>
        unfold SortedSide
        simp only [List.map_cons, List.pairwise_cons, PriceLevel.push_back_price]
        exact ⟨hl, hrest⟩
      next heq =>
        split
        next hbef =>
          unfold SortedSide
          simp only [List.map_cons, List.pairwise_cons, PriceLevel.push_back_price,
            PriceLevel.mk0]
          refine ⟨?_, hl, hrest⟩
          intro x hx
          rcases List.mem_cons.mp hx with hx | hx
          · subst hx; exact hbef
          · exact htrans _ _ _ hbef (hl _ hx)
        next hbef =>
          have hlp : before l.price p = true :=
            htot _ _ (fun hh => heq hh.symm) (Bool.not_eq_true _ ▸ hbef)
          unfold SortedSide
          simp only [List.map_cons, List.pairwise_cons]
          refine ⟨?_, ih hrest⟩
          intro x hx
          rcases side_insert_push_prices rest before p ref lv x hx with h1 | h1
          · subst h1; exact hlp
          · exact hl _ h1

/-- `side_remove` only deletes or rewrites (price-preserving) a level:
the price list of the result is a sublist. -/
theorem side_remove_prices_sublist (s : List PriceLevel) (p : Int) (ref : Nat)
    (lv : Nat) :
    List.Sublist ((side_remove s p ref lv).map (fun l => l.price))
      (s.map (fun l => l.price)) := by
  induction s with
  | nil => simp [side_remove]
  | cons l rest ih =>
      unfold side_remove
      split
      next heq =>
        dsimp only
        split
        · exact List.sublist_cons_of_sublist _ (List.Sublist.refl _)
        · simp only [List.map_cons, PriceLevel.remove_price]
          exact List.Sublist.cons₂ _ (List.Sublist.refl _)
      next heq =>
        simp only [List.map_cons]
        exact List.Sublist.cons₂ _ ih

theorem bid_before_trans (a b c2 : Int) (h1 : bid_before a b = true)
    (h2 : bid_before b c2 = true) : bid_before a c2 = true := by
  unfold bid_before at h1 h2 ⊢
  simp only [decide_eq_true_eq] at h1 h2 ⊢
  exact lt_trans h2 h1

theorem bid_before_tot (a b : Int) (hne : a ≠ b) (h : bid_before a b = false) :
    bid_before b a = true := by
  unfold bid_before at h ⊢
  simp only [decide_eq_false_iff_not] at h
  simp only [decide_eq_true_eq]
  exact lt_of_le_of_ne (not_lt.mp h) hne

theorem ask_before_trans (a b c2 : Int) (h1 : ask_before a b = true)
    (h2 : ask_before b c2 = true) : ask_before a c2 = true := by
  unfold ask_before at h1 h2 ⊢
  simp only [decide_eq_true_eq] at h1 h2 ⊢
  exact lt_trans h1 h2

theorem ask_before_tot (a b : Int) (hne : a ≠ b) (h : ask_before a b = false) :
    ask_before b a = true := by
  unfold ask_before at h ⊢
  simp only [decide_eq_false_iff_not] at h
  simp only [decide_eq_true_eq]
  exact lt_of_le_of_ne (not_lt.mp h) (Ne.symm hne)

/-- The head of a suffix (or any sublist) is an element of the larger
list. -/
theorem head_mem_of_sublist {ps qs : List Price} (h : List.Sublist qs ps)
    {x : Int} (hx : qs.head? = some x) : x ∈ ps :=
  h.subset (List.mem_of_mem_head? hx)

/-- In an ascending list, the head is a lower bound. -/
theorem sorted_asc_head_le {p : Int} {tl : List Price}
    (hs : List.Pairwise (fun a b => ask_before a b = true) (p :: tl))
    {x : Int} (hx : x ∈ p :: tl) : p ≤ x := by
  rcases List.mem_cons.mp hx with rfl | hx
  · exact le_refl _
  · have := (List.pairwise_cons.mp hs).1 x hx
    unfold ask_before at this
    simp only [decide_eq_true_eq] at this
    exact le_of_lt this

/-- In a descending list, the head is an upper bound. -/
theorem sorted_desc_head_ge {p : Int} {tl : List Price}
    (hs : List.Pairwise (fun a b => bid_before a b = true) (p :: tl))
    {x : Int} (hx : x ∈ p :: tl) : x ≤ p := by
  rcases List.mem_cons.mp hx with rfl | hx
  · exact le_refl _
  · have := (List.pairwise_cons.mp hs).1 x hx
    unfold bid_before at this
    simp only [decide_eq_true_eq] at this
    exact le_of_lt this

/-- `side_reduce` preserves the price list of a side. -/
theorem side_reduce_prices (s : List PriceLevel) (p : Int) (d : Nat) :
    ((side_reduce s p d).1).map (fun l => l.price) = s.map (fun l => l.price) := by
  induction s with
  | nil => simp [side_reduce]
  | cons l rest ih =>
      unfold side_reduce
      split
      next heq =>
        simp [PriceLevel.reduce_quantity_price]
      next heq =>
        simp [ih]

theorem buy_price_ok_false {p lp : Int} (h : buy_price_ok p lp = false) : p < lp := by
  unfold buy_price_ok at h
  simp only [Bool.or_eq_false_iff, decide_eq_false_iff_not] at h
  exact not_le.mp h.1

theorem sell_price_ok_false {p lp : Int} (h : sell_price_ok p lp = false) : lp < p := by
  unfold sell_price_ok at h
  simp only [Bool.or_eq_false_iff, decide_eq_false_iff_not] at h
  exact not_le.mp h.1

/-- `match_step` preserves well-formed sides, leaves the incoming
order's terms unchanged, and (except for an aborted FOK, which is never
rested) resting the remainder afterwards also preserves them. -/
theorem wf_match_step (b : OrderBook) (o : Order) (ref : Nat) (o2 : Order)
    (b2 : OrderBook) (hwf : WFSides b) (h : b.match_step o ref = some (o2, b2)) :
    WFSides b2 ∧ o2.price = o.price ∧ o2.side = o.side ∧ o2.type = o.type ∧
    (o2.leaves_qty ≠ 0 → o2.type = .Limit → WFSides (b2.rest_order ref o2)) := by
  unfold OrderBook.match_step at h
  split at h
  next habort =>
      have h' := Option.some.inj h
      simp only [Prod.mk.injEq] at h'
      obtain ⟨h1, h2⟩ := h'
      subst h1
      subst h2
      refine ⟨hwf, rfl, rfl, rfl, ?_⟩
      intro _ htype
      simp only [Bool.and_eq_true, beq_iff_eq] at habort
      rw [habort.1] at htype
      exact absurd htype (by simp)
  next habort =>
      obtain ⟨hbs, has, hnc⟩ := hwf
      split at h
      next hbuy =>
        split at h
        · exact absurd h (by simp)
        next o3 asks2 c2 hma =>
          have h' := Option.some.inj h
          simp only [Prod.mk.injEq] at h'
          obtain ⟨h1, h2⟩ := h'
          subst h1
          subst h2
          obtain ⟨hsuf, hp, hside, htype, hid, hqty, hstop⟩ :=
            match_against_shape o ref b.asks buy_price_ok b.ctx o3 asks2 c2 hma
          have has2 : SortedSide ask_before asks2 := List.Pairwise.sublist hsuf.sublist has
          have hnc2 : NoCross { b with asks := asks2, ctx := c2 } := by
            intro pb hpb pa hpa
            have hpa_mem : pa ∈ b.asks.map (fun l => l.price) :=
              head_mem_of_sublist hsuf.sublist hpa
            cases hb : b.asks.map (fun l => l.price) with
            | nil => rw [hb] at hpa_mem; exact absurd hpa_mem (by simp)
            | cons la tl =>
                have hle : la ≤ pa := sorted_asc_head_le (hb ▸ has) (hb ▸ hpa_mem)
                have hlt : pb < la := hnc pb hpb la (by rw [hb]; rfl)
                exact lt_of_lt_of_le hlt hle
          refine ⟨⟨hbs, has2, hnc2⟩, hp, hside, htype, ?_⟩
          intro hne _
          have ho2buy : o3.is_buy = true := by
            unfold Order.is_buy at hbuy ⊢
            rw [hside]
            exact hbuy
          unfold OrderBook.rest_order
          rw [if_pos ho2buy]
          refine ⟨?_, has2, ?_⟩
          · exact side_insert_push_sorted _ _ _ _ _ bid_before_trans bid_before_tot hbs
          · intro pb hpb pa hpa
            -- pa is the price of the new best ask level, where the price test failed
            rw [List.head?_map] at hpa
            cases hhead : asks2.head? with
            | none => rw [hhead] at hpa; exact absurd hpa (by simp)
            | some lh =>
                rw [hhead] at hpa
                have hpalh : lh.price = pa := by simpa using hpa
                have hfail := hstop lh hhead hne
                have hplt : o.price < lh.price := buy_price_ok_false hfail
                have hpb_mem := List.mem_of_mem_head? hpb
                rcases side_insert_push_prices b.bids bid_before o3.price ref
                    o3.leaves_qty pb hpb_mem with h1 | h1
            -- pb is the freshly rested price or an old bid price
                · subst h1
                  rw [hp]
                  rw [← hpalh]
                  exact hplt
                · cases hb : b.bids.map (fun l => l.price) with
                  | nil => rw [hb] at h1; exact absurd h1 (by simp)
                  | cons lb tl =>
                      have hble : pb ≤ lb := sorted_desc_head_ge (hb ▸ hbs) (hb ▸ h1)
                      have hpa_mem : lh.price ∈ b.asks.map (fun l => l.price) := by
                        refine head_mem_of_sublist hsuf.sublist ?_
                        rw [List.head?_map, hhead]
                        rfl
                      cases ha : b.asks.map (fun l => l.price) with
                      | nil => rw [ha] at hpa_mem; exact absurd hpa_mem (by simp)
                      | cons la tla =>
                          have hlea : la ≤ lh.price :=
                            sorted_asc_head_le (ha ▸ has) (ha ▸ hpa_mem)
                          have hlt : lb < la := hnc lb (by rw [hb]; rfl) la (by rw [ha]; rfl)
                          rw [← hpalh]
                          calc pb ≤ lb := hble
                            _ < la := hlt
                            _ ≤ lh.price := hlea
      next hbuy =>
        split at h
        · exact absurd h (by simp)
        next o3 bids2 c2 hma =>
          have h' := Option.some.inj h
          simp only [Prod.mk.injEq] at h'
          obtain ⟨h1, h2⟩ := h'
          subst h1
          subst h2
          obtain ⟨hsuf, hp, hside, htype, hid, hqty, hstop⟩ :=
            match_against_shape o ref b.bids sell_price_ok b.ctx o3 bids2 c2 hma
          have hbs2 : SortedSide bid_before bids2 := List.Pairwise.sublist hsuf.sublist hbs
          have hnc2 : NoCross { b with bids := bids2, ctx := c2 } := by
            intro pb hpb pa hpa
            have hpb_mem : pb ∈ b.bids.map (fun l => l.price) :=
              head_mem_of_sublist hsuf.sublist hpb
            cases hb : b.bids.map (fun l => l.price) with
            | nil => rw [hb] at hpb_mem; exact absurd hpb_mem (by simp)
            | cons lb tl =>
                have hle : pb ≤ lb := sorted_desc_head_ge (hb ▸ hbs) (hb ▸ hpb_mem)
                have hlt : lb < pa := hnc lb (by rw [hb]; rfl) pa hpa
                exact lt_of_le_of_lt hle hlt
          refine ⟨⟨hbs2, has, hnc2⟩, hp, hside, htype, ?_⟩
          intro hne _
          have ho2sell : o3.is_buy = false := by
            unfold Order.is_buy at hbuy ⊢
            rw [hside]
            simpa using hbuy
          unfold OrderBook.rest_order
          rw [if_neg (by simp [ho2sell])]
          refine ⟨hbs2, ?_, ?_⟩
          · exact side_insert_push_sorted _ _ _ _ _ ask_before_trans ask_before_tot has
          · intro pb hpb pa hpa
            rw [List.head?_map] at hpb
            cases hhead : bids2.head? with
            | none => rw [hhead] at hpb; exact absurd hpb (by simp)
            | some lh =>
                rw [hhead] at hpb
                have hpblh : lh.price = pb := by simpa using hpb
                have hfail := hstop lh hhead hne
                have hplt : lh.price < o.price := sell_price_ok_false hfail
                have hpa_mem := List.mem_of_mem_head? hpa
                rcases side_insert_push_prices b.asks ask_before o3.price ref
                    o3.leaves_qty pa hpa_mem with h1 | h1
                · subst h1
                  rw [hp, ← hpblh]
                  exact hplt
                · cases ha : b.asks.map (fun l => l.price) with
                  | nil => rw [ha] at h1; exact absurd h1 (by simp)
                  | cons la tla =>
                      have hale : la ≤ pa := sorted_asc_head_le (ha ▸ has) (ha ▸ h1)
                      have hpb_mem : lh.price ∈ b.bids.map (fun l => l.price) := by
                        refine head_mem_of_sublist hsuf.sublist ?_
                        rw [List.head?_map, hhead]
                        rfl
                      cases hb : b.bids.map (fun l => l.price) with
                      | nil => rw [hb] at hpb_mem; exact absurd hpb_mem (by simp)
                      | cons lb tlb =>
                          have hble : lh.price ≤ lb :=
                            sorted_desc_head_ge (hb ▸ hbs) (hb ▸ hpb_mem)
                          have hlt : lb < la := hnc lb (by rw [hb]; rfl) la (by rw [ha]; rfl)
                          rw [← hpblh]
                          calc lh.price ≤ lb := hble
                            _ < la := hlt
                            _ ≤ pa := hale

/-- `WFSides` only depends on the two sides, never on the context. -/
theorem wf_ctx_update (b : OrderBook) (c : MatchCtx) (h : WFSides b) :
    WFSides { b with ctx := c } := h

/-- Resting commutes with a pure context update. -/
theorem rest_order_ctx_comm (b : OrderBook) (c : MatchCtx) (ref : Nat) (o : Order) :
    ({ b with ctx := c } : OrderBook).rest_order ref o
      = { b.rest_order ref o with ctx := c } := by
  unfold OrderBook.rest_order
  split <;> rfl

/-- `remove_from_book` preserves well-formed sides. -/
theorem wf_remove_from_book (b : OrderBook) (o : Order) (ref : Nat)
    (hwf : WFSides b) : WFSides (b.remove_from_book o ref) := by
  obtain ⟨hbs, has, hnc⟩ := hwf
  unfold OrderBook.remove_from_book
  split
  · refine ⟨List.Pairwise.sublist (side_remove_prices_sublist _ _ _ _) hbs, has, ?_⟩
    intro pb hpb pa hpa
    have hpb_mem : pb ∈ b.bids.map (fun l => l.price) :=
      head_mem_of_sublist (side_remove_prices_sublist _ _ _ _) hpb
    cases hb : b.bids.map (fun l => l.price) with
    | nil => rw [hb] at hpb_mem; exact absurd hpb_mem (by simp)
    | cons lb tl =>
        have hle : pb ≤ lb := sorted_desc_head_ge (hb ▸ hbs) (hb ▸ hpb_mem)
        have hlt : lb < pa := hnc lb (by rw [hb]; rfl) pa hpa
        exact lt_of_le_of_lt hle hlt
  · refine ⟨hbs, List.Pairwise.sublist (side_remove_prices_sublist _ _ _ _) has, ?_⟩
    intro pb hpb pa hpa
    have hpa_mem : pa ∈ b.asks.map (fun l => l.price) :=
      head_mem_of_sublist (side_remove_prices_sublist _ _ _ _) hpa
    cases ha : b.asks.map (fun l => l.price) with
    | nil => rw [ha] at hpa_mem; exact absurd hpa_mem (by simp)
    | cons la tl =>
        have hle : la ≤ pa := sorted_asc_head_le (ha ▸ has) (ha ▸ hpa_mem)
        have hlt : pb < la := hnc pb hpb la (by rw [ha]; rfl)
        exact lt_of_lt_of_le hlt hle

/-- `add_order` preserves well-formed sides. -/
theorem wf_add_order (b : OrderBook) (req : NewOrderRequest) (b2 : OrderBook)
    (hwf : WFSides b) (h : b.add_order req = some b2) : WFSides b2 := by
  unfold OrderBook.add_order at h
  dsimp only at h
  split at h
  · exact absurd h (by simp)
  next o2 b3 hms =>
    have hm := wf_match_step _ _ _ _ _ (wf_ctx_update b _ hwf) hms
    split at h
    · have h' := Option.some.inj h
      subst h'
      exact hm.1
    · split at h
      next htl =>
        have h' := Option.some.inj h
        subst h'
        rw [rest_order_ctx_comm]
        exact wf_ctx_update _ _ (hm.2.2.2.2 (by assumption) htl)
      next =>
        have h' := Option.some.inj h
        subst h'
        exact hm.1

/-- `cancel_order` preserves well-formed sides. -/
theorem wf_cancel_order (b : OrderBook) (id : Nat) (b2 : OrderBook) (r : Bool)
    (hwf : WFSides b) (h : b.cancel_order id = some (b2, r)) : WFSides b2 := by
  unfold OrderBook.cancel_order at h
  split at h
  · have h' := Option.some.inj h
    simp only [Prod.mk.injEq] at h'
    rw [← h'.1]
    exact hwf
  next ref hlook =>
    split at h
    · exact absurd h (by simp)
    next o harena =>
      split at h
      · have h' := Option.some.inj h
        simp only [Prod.mk.injEq] at h'
        rw [← h'.1]
        exact hwf
      · have h' := Option.some.inj h
        simp only [Prod.mk.injEq] at h'
        rw [← h'.1]
        exact wf_remove_from_book b o ref hwf

/-- `amend_order` preserves well-formed sides. -/
theorem wf_amend_order (b : OrderBook) (req : AmendRequest) (b2 : OrderBook)
    (r : Bool) (hwf : WFSides b) (h : b.amend_order req = some (b2, r)) :
    WFSides b2 := by
  unfold OrderBook.amend_order at h
  split at h
  · have h' := Option.some.inj h
    simp only [Prod.mk.injEq] at h'
    rw [← h'.1]
    exact hwf
  next ref hlook =>
    split at h
    · exact absurd h (by simp)
    next o harena =>
      split at h
      · have h' := Option.some.inj h
        simp only [Prod.mk.injEq] at h'
        rw [← h'.1]
        exact hwf
      · dsimp only at h
        split at h
        next hlosing =>
          split at h
          · exact absurd h (by simp)
          next o4 b4 hms =>
            have hm := wf_match_step _ _ _ _ _
              (wf_ctx_update _ _ (wf_remove_from_book b o ref hwf)) hms
            split at h
            next hrest =>
              simp only [Bool.and_eq_true, bne_iff_ne, beq_iff_eq] at hrest
              have h' := Option.some.inj h
              simp only [Prod.mk.injEq] at h'
              rw [← h'.1]
              rw [rest_order_ctx_comm]
              exact wf_ctx_update _ _ (hm.2.2.2.2 hrest.1 hrest.2)
            next =>
              have h' := Option.some.inj h
              simp only [Prod.mk.injEq] at h'
              rw [← h'.1]
              exact hm.1
        next =>
          split at h
          next hreduce =>
            have h' := Option.some.inj h
            simp only [Prod.mk.injEq] at h'
            rw [← h'.1]
            obtain ⟨hbs, has, hnc⟩ := hwf
            split
            · refine ⟨?_, has, ?_⟩
              · unfold SortedSide
                rw [side_reduce_prices]
                exact hbs
              · intro pb hpb pa hpa
                rw [side_reduce_prices] at hpb
                exact hnc pb hpb pa hpa
            · refine ⟨hbs, ?_, ?_⟩
              · unfold SortedSide
                rw [side_reduce_prices]
                exact has
              · intro pb hpb pa hpa
                rw [side_reduce_prices] at hpa
                exact hnc pb hpb pa hpa
          next =>
            have h' := Option.some.inj h
            simp only [Prod.mk.injEq] at h'
            rw [← h'.1]
            exact hwf

/-- Every request preserves well-formed sides. -/
theorem wf_apply_request (b : OrderBook) (r : Request) (b2 : OrderBook)
    (hwf : WFSides b) (h : apply_request b r = some b2) : WFSides b2 := by
  unfold apply_request at h
  cases r with
  | newOrder req => exact wf_add_order b req b2 hwf h
  | cancel id =>
      rcases Option.map_eq_some'.mp h with ⟨⟨b3, r3⟩, h1, h2⟩
      subst h2
      exact wf_cancel_order b id b3 r3 hwf h1
  | amend req =>
      rcases Option.map_eq_some'.mp h with ⟨⟨b3, r3⟩, h1, h2⟩
      subst h2
      exact wf_amend_order b req b3 r3 hwf h1

/-- The empty book has well-formed sides. -/
theorem wf_empty_book : WFSides OrderBook.empty := by
  refine ⟨?_, ?_, ?_⟩
  · simp [SortedSide, OrderBook.empty]
  · simp [SortedSide, OrderBook.empty]
  · intro pb hpb pa hpa
    simp [OrderBook.empty] at hpb

/-- Any run from a well-formed book ends well-formed. -/
theorem wf_run_book (rs : List Request) (b b2 : OrderBook) (hwf : WFSides b)
    (h : run_book b rs = some b2) : WFSides b2 := by
  induction rs generalizing b with
  | nil =>
      unfold run_book at h
      have h' := Option.some.inj h
      subst h'
      exact hwf
  | cons r rest ih =>
      unfold run_book at h
      split at h
      · exact absurd h (by simp)
      next b3 h1 => exact ih b3 (wf_apply_request b r b3 hwf h1) h

/-- `NoCross` is exactly what `check_no_crossed_book` tests. -/
theorem check_no_crossed_of_noCross (b : OrderBook) (h : NoCross b) :
    b.check_no_crossed_book = true := by
  unfold OrderBook.check_no_crossed_book OrderBook.best_bid OrderBook.best_ask
  cases hb : b.bids with
  | nil => rfl
  | cons lb tl =>
      cases ha : b.asks with
      | nil => rfl
      | cons la tla =>
          simp only [decide_eq_true_eq]
          exact h lb.price (by rw [hb]; rfl) la.price (by rw [ha]; rfl)

/-- C1: `cancel_order` on an order that is resting on the book after a
priority-preserving amend (status `Amended`, still linked in its level,
still in the id index) returns `false` and mutates nothing, because
`Order::is_active` treats only `New` and `PartiallyFilled` as active.
The claim (and the spec's error-handling section and status state
machine, which let Amended transition to Cancelled) says this cancel
must succeed, so the code's `is_active` omitting `Amended` is the bug. -/
theorem c1_cancel_amended_resting_order_returns_false :
    c1_book.cancel_order 1 = some (c1_book, false) ∧
    c1_book.bids.map (fun l => (l.price, l.queue)) = [(10000, [0])] ∧
    (c1_book.ctx.arena.get? 0).map (fun o => o.status) = some .Amended ∧
    idx_lookup c1_book.ctx.order_index 1 = some 0 := by decide

/-- C2: after filling 90 of 100 and amending to `new_quantity = 50`
(above `leaves_qty = 10`, so classified priority-losing; below
`filled_qty = 90`), the unsigned recomputation
`leaves_qty = new_quantity - filled_qty` wraps to `2^64 - 40`, and the
spec invariant P3 `filled_qty + leaves_qty ≤ quantity` is violated. -/
theorem c2_amend_underflow_breaks_quantity_invariant :
    (run_book OrderBook.empty c2_reqs).isSome = true ∧
    (c2_book.ctx.arena.get? 1).map
        (fun o => (o.quantity, o.filled_qty, o.leaves_qty)) =
      some (50, 90, U64 - 40) ∧
    (c2_book.ctx.arena.get? 1).map
        (fun o => decide (o.quantity < o.filled_qty + o.leaves_qty)) =
      some true := by decide

/-- The C3 run evaluated step by step through the intermediate books. -/
theorem c3_run_eval : run_book OrderBook.empty c3_reqs = some c3_b11 := by
  have hl : c3_reqs =
      [buyLimit 1 10000 100, buyLimit 2 10000 100, buyLimit 3 10000 100,
       buyLimit 4 10000 100, buyLimit 5 10000 100, buyLimit 6 10000 100,
       buyLimit 7 10000 100, buyLimit 8 10000 100, buyLimit 9 10000 100,
       buyLimit 10 10000 100,
       .newOrder { id := 100, side := .Sell, type := .Market,
                   price := PRICE_MARKET, quantity := 300 }] := by decide
  rw [hl]
  rw [run_book_cons _ c3_b1 _ _ (by decide)]
  rw [run_book_cons _ c3_b2 _ _ (by decide)]
  rw [run_book_cons _ c3_b3 _ _ (by decide)]
  rw [run_book_cons _ c3_b4 _ _ (by decide)]
  rw [run_book_cons _ c3_b5 _ _ (by decide)]
  rw [run_book_cons _ c3_b6 _ _ (by decide)]
  rw [run_book_cons _ c3_b7 _ _ (by decide)]
  rw [run_book_cons _ c3_b8 _ _ (by decide)]
  rw [run_book_cons _ c3_b9 _ _ (by decide)]
  rw [run_book_cons _ c3_b10 _ _ (by decide)]
  rw [run_book_cons _ c3_b11 _ _ (by decide)]
  rfl

/-- C3: from an empty book, ten buy limit orders id 1..10 at 10000 for
100 each followed by one sell market order of 300 produce exactly three
trades, in order, with buy ids 1, 2, 3, each 100 at price 10000. -/
theorem c3_fifo_at_equal_price :
    (run_book OrderBook.empty c3_reqs).map (fun b =>
        b.ctx.trades.map (fun t => (t.buy_order_id, t.price, t.quantity))) =
      some [(1, 10000, 100), (2, 10000, 100), (3, 10000, 100)] := by
  rw [c3_run_eval]
  decide

/-- C4 counterexample: with bids 90×100 and 100×100 resting, a sell FOK
at 100 for 100 is fully coverable by the crossable bid level at 100, yet
it executes no trade and is cancelled: `can_fill_completely` iterates
the bid map in ascending price order and breaks at the lowest bid 90,
which the sell price 100 does not cross. -/
theorem c4_sell_fok_coverable_but_cancelled :
    c4_book_before.bids.map (fun l => (l.price, l.total_quantity)) =
      [(100, 100), (90, 100)] ∧
    sell_price_ok (100 : Int) 100 = true ∧
    (run_book OrderBook.empty c4_reqs).isSome = true ∧
    c4_book.ctx.trades = [] ∧
    (c4_book.ctx.arena.get? 2).map
        (fun o => (o.status, o.leaves_qty, o.filled_qty)) =
      some (.Cancelled, 0, 0) := by decide

/-- C7 counterexample: `MatchingEngine::cancel_order` on a symbol with
no registered book returns `false` but leaves the engine — including
`total_rejects` — completely unchanged, where the claim requires the
rejects counter to be incremented. -/
theorem c7_cancel_unknown_symbol_does_not_count_reject :
    (MatchingEngine.ofSymbols []).cancel_order "AAPL" 1 =
      some (MatchingEngine.ofSymbols [], false) ∧
    (MatchingEngine.ofSymbols []).stats.total_rejects = 0 := by decide

/-- C7 (amended): on an unknown symbol, `submit_order` increments
`total_rejects` and returns null with no other mutation, while
`cancel_order` and `amend_order` return `false` with no mutation at all
(in particular without touching `total_rejects`). -/
theorem c7_unknown_symbol_facade (e : MatchingEngine) (sym : String)
    (req : NewOrderRequest) (areq : AmendRequest) (id : Nat)
    (h : eng_find e.books sym = none) :
    e.submit_order sym req =
      some ({ e with stats :=
        { e.stats with total_rejects := wadd e.stats.total_rejects 1 } }, none) ∧
    e.cancel_order sym id = some (e, false) ∧
    e.amend_order sym areq = some (e, false) := by
  unfold MatchingEngine.submit_order MatchingEngine.cancel_order
    MatchingEngine.amend_order
  rw [h]
  exact ⟨rfl, rfl, rfl⟩

/-- Witness for `c7_unknown_symbol_facade` at a concrete engine. -/
theorem c7_unknown_symbol_facade_witness :
    (MatchingEngine.ofSymbols ["TEST"]).cancel_order "AAPL" 7 =
      some (MatchingEngine.ofSymbols ["TEST"], false) :=
  (c7_unknown_symbol_facade (MatchingEngine.ofSymbols ["TEST"]) "AAPL"
    { id := 1, side := .Buy, type := .Limit, price := 100, quantity := 10 }
    { order_id := 1, new_price := 0, new_quantity := 0 } 7 (by decide)).2.1

/-- C9: the embedded book is a function of the request sequence alone:
two runs of the same sequence from the same initial state produce equal
final books and positionwise equal trades (price, quantity, buy id,
sell id, sequence).  Wall-clock timestamps are outside the model. -/
theorem c9_determinism (rs : List Request) (b1 b2 : OrderBook)
    (h1 : run_book OrderBook.empty rs = some b1)
    (h2 : run_book OrderBook.empty rs = some b2) :
    b1 = b2 ∧
    (∀ i, (b1.ctx.trades.get? i).map (fun t =>
        (t.price, t.quantity, t.buy_order_id, t.sell_order_id, t.sequence)) =
      (b2.ctx.trades.get? i).map (fun t =>
        (t.price, t.quantity, t.buy_order_id, t.sell_order_id, t.sequence))) := by
  have h := Option.some.inj (h1.symm.trans h2)
  subst h
  exact ⟨rfl, fun _ => rfl⟩

/-- Witness for `c9_determinism` on a concrete crossing sequence. -/
theorem c9_determinism_witness : c9_book = c9_book :=
  (c9_determinism c9_reqs c9_book c9_book (by decide) (by decide)).1

/-- C10: submitting a sell order while the bid map is empty does reach
the `std::prev(contra_side.end())` initializer of `match_against` with
an empty contra map (undefined behaviour), contrary to the claim; the
operation otherwise completes because the loop guard re-derives the
iterator before any use. -/
theorem c10_prev_end_executed_on_empty_bid_map :
    OrderBook.empty.prev_end_on_empty_bids
      (order_of_request OrderBook.empty.ctx c10_req) = true ∧
    OrderBook.empty.bids = [] ∧
    (OrderBook.empty.add_order c10_req).isSome = true := by decide

/-- C5: after every completed public operation, the book is not crossed. -/
theorem c5_no_crossed_book (rs : List Request) (b : OrderBook)
    (h : run_book OrderBook.empty rs = some b) :
    b.check_no_crossed_book = true :=
  check_no_crossed_of_noCross b
    (wf_run_book rs OrderBook.empty b wf_empty_book h).2.2

/-- Witness for `c5_no_crossed_book` on a concrete two-sided book. -/
theorem c5_no_crossed_book_witness : c5_book.check_no_crossed_book = true :=
  c5_no_crossed_book c5_reqs c5_book (by decide)


theorem wsub_exact (a b : Nat) (hba : b ≤ a) (ha : a < U64) : wsub a b = a - b := by
  unfold wsub U64 at *
  omega

theorem w32sub_one_exact (n : Nat) (h : n < U32) (h0 : 0 < n) : w32sub n 1 = n - 1 := by
  unfold w32sub U32 at *
  omega

/-- Setting an arena slot outside a queue does not change its sum. -/
theorem queue_leaves_sum_set_notin (arena : List Order) (q : List Nat) (r : Nat)
    (x : Order) (hr : r ∉ q) :
    queue_leaves_sum (arena.set r x) q = queue_leaves_sum arena q := by
  induction q with
  | nil => rfl
  | cons a t ih =>
      unfold queue_leaves_sum
      have hne : r ≠ a := fun hh => hr (hh ▸ List.mem_cons_self a t)
      rw [List.get?_set_ne x arena hne, ih (fun hh => hr (List.mem_cons_of_mem a hh))]

theorem elem_le_queue_sum (arena : List Order) (q : List Nat) (r : Nat) (o : Order)
    (hr : r ∈ q) (ho : arena.get? r = some o) :
    o.leaves_qty ≤ queue_leaves_sum arena q := by
  induction q with
  | nil => exact absurd hr (by simp)
  | cons a t ih =>
      unfold queue_leaves_sum
      rcases List.mem_cons.mp hr with rfl | hr2
      · rw [ho]
        exact Nat.le_add_right _ _
      · exact le_trans (ih hr2) (Nat.le_add_left _ _)


theorem queue_leaves_sum_cons (arena : List Order) (r : Nat) (t : List Nat) :
    queue_leaves_sum arena (r :: t) =
      (match arena.get? r with | some o => o.leaves_qty | none => 0)
        + queue_leaves_sum arena t := rfl

/-- Erasing one key leaves lookups of other keys unchanged. -/
theorem idx_lookup_erase_ne (m : OrderIndex) (k k2 : Nat) (h : ¬ k = k2) :
    idx_lookup (idx_erase m k) k2 = idx_lookup m k2 := by
  induction m with
  | nil => rfl
  | cons e t ih =>
      rcases e with ⟨k1, v⟩
      by_cases h1 : k1 = k
      · subst h1
        have hne : ¬ k1 = k2 := h
        simp [idx_erase, idx_lookup, List.filter_cons, hne] at *
        simpa [idx_erase] using ih
      · by_cases h2 : k1 = k2
        · subst h2
          simp [idx_erase, idx_lookup, List.filter_cons, h1]
        · simp [idx_erase, idx_lookup, List.filter_cons, h1, h2] at *
          simpa [idx_erase] using ih

/-- Erasing a key removes it from the index. -/
theorem idx_lookup_erase_self (m : OrderIndex) (k : Nat) :
    idx_lookup (idx_erase m k) k = none := by
  induction m with
  | nil => rfl
  | cons e t ih =>
      rcases e with ⟨k1, v⟩
      by_cases h1 : k1 = k
      · subst h1
        simp [idx_erase, List.filter_cons] at *
        simpa [idx_erase] using ih
      · simp [idx_erase, idx_lookup, List.filter_cons, h1] at *
        simpa [idx_erase] using ih

/-- `idx_erase` only removes entries: a surviving binding was already
present. -/
theorem idx_lookup_erase_some (m : OrderIndex) (k k2 v : Nat)
    (h : idx_lookup (idx_erase m k) k2 = some v) :
    idx_lookup m k2 = some v := by
  by_cases hk : k = k2
  · subst hk
    rw [idx_lookup_erase_self] at h
    cases h
  · rw [idx_lookup_erase_ne _ _ _ hk] at h
    exact h

/-- One unfolding of the inner loop in its main case. -/
theorem match_level_go_cons_eq (inc_ref : Nat) (qh : Nat) (qt : List Nat)
    (inc : Order) (l : PriceLevel) (c : MatchCtx) (r : Nat) (qrest : List Nat)
    (resting : Order) (hz : ¬ inc.leaves_qty = 0) (hc : ¬ l.order_count = 0)
    (hqueue : l.queue = r :: qrest) (harena : c.arena.get? r = some resting) :
    match_level_go inc_ref (qh :: qt) inc l c =
      (if (resting.fill (min inc.leaves_qty resting.leaves_qty)).leaves_qty = 0 then
        match_level_go inc_ref qt (inc.fill (min inc.leaves_qty resting.leaves_qty))
          ((l.reduce_quantity (min inc.leaves_qty resting.leaves_qty)).1.pop_front
            (resting.fill (min inc.leaves_qty resting.leaves_qty)).leaves_qty)
          { arena := c.arena.set r (resting.fill (min inc.leaves_qty resting.leaves_qty))
            order_index := idx_erase c.order_index
              (resting.fill (min inc.leaves_qty resting.leaves_qty)).id
            next_sequence := wadd c.next_sequence 1
            trade_count := wadd c.trade_count 1
            total_volume := wadd c.total_volume (min inc.leaves_qty resting.leaves_qty)
            trades := c.trades ++
              [mk_trade c inc inc_ref resting r (min inc.leaves_qty resting.leaves_qty)]
            sat_events := c.sat_events +
              sat_count (l.reduce_quantity (min inc.leaves_qty resting.leaves_qty)).2 }
      else
        some (inc.fill (min inc.leaves_qty resting.leaves_qty),
          (l.reduce_quantity (min inc.leaves_qty resting.leaves_qty)).1,
          { arena := c.arena.set r (resting.fill (min inc.leaves_qty resting.leaves_qty))
            order_index := c.order_index
            next_sequence := wadd c.next_sequence 1
            trade_count := wadd c.trade_count 1
            total_volume := wadd c.total_volume (min inc.leaves_qty resting.leaves_qty)
            trades := c.trades ++
              [mk_trade c inc inc_ref resting r (min inc.leaves_qty resting.leaves_qty)]
            sat_events := c.sat_events +
              sat_count (l.reduce_quantity (min inc.leaves_qty resting.leaves_qty)).2 })) := by
  conv_lhs => unfold match_level_go
  rw [if_neg hz, if_neg hc]
  dsimp only
  rw [hqueue]
  dsimp only
  rw [harena]


/-- The inner FIFO walk under aggregate-exact hypotheses: it succeeds,
consumes exactly `min leaves total` from both the incoming order and the
level, and preserves exactness. -/
theorem match_level_consume (inc_ref : Nat) (q : List Nat) (inc : Order)
    (l : PriceLevel) (c : MatchCtx) (hq : l.queue = q) (hlw : LevelWF c.arena l)
    (hinc : inc.leaves_qty < U64) :
    ∃ inc2 l2 c2, match_level_go inc_ref q inc l c = some (inc2, l2, c2) ∧
      inc2.leaves_qty = inc.leaves_qty - min inc.leaves_qty l.total_quantity ∧
      l2.total_quantity = l.total_quantity - min inc.leaves_qty l.total_quantity ∧
      l2.queue.Sublist l.queue ∧
      LevelWF c2.arena l2 ∧
      c2.arena.length = c.arena.length ∧
      (∀ r2, r2 ∉ l.queue → c2.arena.get? r2 = c.arena.get? r2) ∧
      c2.sat_events = c.sat_events ∧
      (∀ r2, Option.map (fun o => o.id) (c2.arena.get? r2) =
        Option.map (fun o => o.id) (c.arena.get? r2)) ∧
      (∀ id2, (∀ r2, r2 ∈ l.queue → r2 ∉ l2.queue →
          ∀ o2, c.arena.get? r2 = some o2 → ¬ o2.id = id2) →
        idx_lookup c2.order_index id2 = idx_lookup c.order_index id2) ∧
      (∀ id2 r2, idx_lookup c2.order_index id2 = some r2 →
        idx_lookup c.order_index id2 = some r2) := by
  induction q generalizing inc l c with
  | nil =>
      obtain ⟨htot, hcnt, hlen, hsum, hnd, hrefs⟩ := hlw
      have htot0 : l.total_quantity = 0 := by
        rw [htot, hq]
        rfl
      have hcnt0 : l.order_count = 0 := by
        rw [hcnt, hq]
        rfl
      refine ⟨inc, l, c, ?_, by simp [htot0], by simp [htot0],
        List.Sublist.refl _, ⟨htot, hcnt, hlen, hsum, hnd, hrefs⟩, rfl,
        fun _ _ => rfl, rfl, fun _ => rfl, fun _ _ => rfl, fun _ _ h => h⟩
      unfold match_level_go
      split
      · rfl
      · simp [hcnt0]
  | cons qh qt ih =>
      obtain ⟨htot, hcnt, hlen, hsum, hnd, hrefs⟩ := hlw
      by_cases hz : inc.leaves_qty = 0
      · refine ⟨inc, l, c, ?_, by simp [hz], by simp [hz], List.Sublist.refl _,
          ⟨htot, hcnt, hlen, hsum, hnd, hrefs⟩, rfl, fun _ _ => rfl, rfl,
          fun _ => rfl, fun _ _ => rfl, fun _ _ h => h⟩
        unfold match_level_go
        rw [if_pos hz]
      · have hcount_ne : ¬ l.order_count = 0 := by
          rw [hcnt, hq]
          simp
        have hqh_mem : qh ∈ l.queue := by
          rw [hq]
          exact List.mem_cons_self _ _
        obtain ⟨hqh_lt, hqh_pos⟩ := hrefs qh hqh_mem
        obtain ⟨resting, hresting⟩ : ∃ o, c.arena.get? qh = some o := by
          cases harr : c.arena.get? qh with
          | none =>
              have := List.get?_eq_none.mp harr
              omega
          | some o => exact ⟨o, rfl⟩
        have hpos : 0 < resting.leaves_qty := hqh_pos resting (Option.mem_def.mpr hresting)
        have hsum_split : queue_leaves_sum c.arena l.queue =
            resting.leaves_qty + queue_leaves_sum c.arena qt := by
          rw [hq, queue_leaves_sum_cons, hresting]
        have htotv : l.total_quantity =
            resting.leaves_qty + queue_leaves_sum c.arena qt := by
          rw [htot, hsum_split]
        have hsumv : resting.leaves_qty + queue_leaves_sum c.arena qt < U64 := by
          rw [← hsum_split]
          exact hsum
        have hrl_le : resting.leaves_qty ≤ l.total_quantity := by
          rw [htot]
          exact elem_le_queue_sum c.arena l.queue qh resting hqh_mem hresting
        have hrl_lt : resting.leaves_qty < U64 := by
          omega
        have hfill_le_r : min inc.leaves_qty resting.leaves_qty ≤ resting.leaves_qty :=
          Nat.min_le_right _ _
        have hfill_le_i : min inc.leaves_qty resting.leaves_qty ≤ inc.leaves_qty :=
          Nat.min_le_left _ _
        have hfill_le_t : min inc.leaves_qty resting.leaves_qty ≤ l.total_quantity :=
          le_trans hfill_le_r hrl_le
        have hnosat : (l.reduce_quantity (min inc.leaves_qty resting.leaves_qty)).2
            = false := by
          unfold PriceLevel.reduce_quantity
          rw [if_neg (not_lt.mpr hfill_le_t)]
        have hredt : (l.reduce_quantity (min inc.leaves_qty resting.leaves_qty)).1.total_quantity
            = l.total_quantity - min inc.leaves_qty resting.leaves_qty := by
          unfold PriceLevel.reduce_quantity
          rw [if_neg (not_lt.mpr hfill_le_t)]
        have hfillr : (resting.fill (min inc.leaves_qty resting.leaves_qty)).leaves_qty
            = resting.leaves_qty - min inc.leaves_qty resting.leaves_qty := by
          unfold Order.fill
          exact wsub_exact _ _ hfill_le_r hrl_lt
        have hfilli : (inc.fill (min inc.leaves_qty resting.leaves_qty)).leaves_qty
            = inc.leaves_qty - min inc.leaves_qty resting.leaves_qty := by
          unfold Order.fill
          exact wsub_exact _ _ hfill_le_i hinc
        have hnd2 : (qh :: qt).Nodup := hq ▸ hnd
        have hqh_notin : qh ∉ qt := (List.nodup_cons.mp hnd2).1
        have hndqt : qt.Nodup := (List.nodup_cons.mp hnd2).2
        have hsumqt_set : queue_leaves_sum
            (c.arena.set qh (resting.fill (min inc.leaves_qty resting.leaves_qty))) qt
            = queue_leaves_sum c.arena qt :=
          queue_leaves_sum_set_notin _ _ _ _ hqh_notin
        have hlen2 : qt.length + 1 < U32 := by
          rw [hq] at hlen
          simpa using hlen
        rw [match_level_go_cons_eq inc_ref qh qt inc l c qh qt resting hz hcount_ne hq
          hresting]
        by_cases hfull : (resting.fill (min inc.leaves_qty resting.leaves_qty)).leaves_qty = 0
        · -- the resting order is fully filled and popped; recurse on the tail
          rw [if_pos hfull]
          have hfill_eq : min inc.leaves_qty resting.leaves_qty = resting.leaves_qty := by
            rw [hfillr] at hfull
            omega
          have hfei : resting.leaves_qty ≤ inc.leaves_qty := by
            rw [hfill_eq] at hfill_le_i
            exact hfill_le_i
          have hq2 : ((l.reduce_quantity (min inc.leaves_qty resting.leaves_qty)).1.pop_front
              (resting.fill (min inc.leaves_qty resting.leaves_qty)).leaves_qty).queue = qt := by
            unfold PriceLevel.pop_front
            rw [PriceLevel.reduce_quantity_queue, hq]
          have htot2 : ((l.reduce_quantity (min inc.leaves_qty resting.leaves_qty)).1.pop_front
              (resting.fill (min inc.leaves_qty resting.leaves_qty)).leaves_qty).total_quantity
              = l.total_quantity - resting.leaves_qty := by
            unfold PriceLevel.pop_front
            rw [PriceLevel.reduce_quantity_queue]
            rw [hq]
            dsimp only
            rw [hfull, hredt, hfill_eq]
            have hbound : l.total_quantity - resting.leaves_qty < U64 := by
              omega
            rw [wsub_exact _ 0 (Nat.zero_le _) hbound]
            omega
          have hcnt2 : ((l.reduce_quantity (min inc.leaves_qty resting.leaves_qty)).1.pop_front
              (resting.fill (min inc.leaves_qty resting.leaves_qty)).leaves_qty).order_count
              = qt.length := by
            unfold PriceLevel.pop_front
            rw [PriceLevel.reduce_quantity_queue]
            rw [hq]
            dsimp only
            rw [PriceLevel.reduce_quantity_count, hcnt, hq]
            have hw : w32sub (qh :: qt).length 1 = (qh :: qt).length - 1 :=
              w32sub_one_exact ((qh :: qt).length) (by simpa using hlen2) (by simp)
            rw [hw]
            simp
          have hlw2 : LevelWF
              (c.arena.set qh (resting.fill (min inc.leaves_qty resting.leaves_qty)))
              ((l.reduce_quantity (min inc.leaves_qty resting.leaves_qty)).1.pop_front
                (resting.fill (min inc.leaves_qty resting.leaves_qty)).leaves_qty) := by
            refine ⟨?_, ?_, ?_, ?_, ?_, ?_⟩
            · rw [htot2, hq2, hsumqt_set]
              omega
            · rw [hcnt2, hq2]
            · rw [hq2]
              omega
            · rw [hq2, hsumqt_set]
              omega
            · rw [hq2]
              exact hndqt
            · rw [hq2]
              intro r2 hr2
              obtain ⟨hlt2, hpos2⟩ := hrefs r2 (by rw [hq]; exact List.mem_cons_of_mem _ hr2)
              refine ⟨by simpa using hlt2, ?_⟩
              intro o2 ho2
              have hne : qh ≠ r2 := fun hh => hqh_notin (hh ▸ hr2)
              rw [List.get?_set_ne _ _ hne] at ho2
              exact hpos2 o2 ho2
          have hinc2 : (inc.fill (min inc.leaves_qty resting.leaves_qty)).leaves_qty < U64 := by
            rw [hfilli]
            omega
          obtain ⟨inc3, l3, c3, hrec, hrl, hrt, hrs, hrlw, hrlen, hrframe, hrsat,
            hrids, hridx, hrerz⟩ :=
            ih (inc.fill (min inc.leaves_qty resting.leaves_qty))
              ((l.reduce_quantity (min inc.leaves_qty resting.leaves_qty)).1.pop_front
                (resting.fill (min inc.leaves_qty resting.leaves_qty)).leaves_qty)
              { arena := c.arena.set qh (resting.fill (min inc.leaves_qty resting.leaves_qty))
                order_index := idx_erase c.order_index
                  (resting.fill (min inc.leaves_qty resting.leaves_qty)).id
                next_sequence := wadd c.next_sequence 1
                trade_count := wadd c.trade_count 1
                total_volume := wadd c.total_volume (min inc.leaves_qty resting.leaves_qty)
                trades := c.trades ++
                  [mk_trade c inc inc_ref resting qh (min inc.leaves_qty resting.leaves_qty)]
                sat_events := c.sat_events +
                  sat_count (l.reduce_quantity (min inc.leaves_qty resting.leaves_qty)).2 }
              hq2 hlw2 hinc2
          rw [htot2] at hrl hrt
          rw [hfilli, hfill_eq] at hrl
          rw [hfilli, hfill_eq] at hrt
          refine ⟨inc3, l3, c3, hrec, ?_, ?_, ?_, hrlw, ?_, ?_, ?_, ?_, ?_, ?_⟩
          · rcases Nat.le_total inc.leaves_qty l.total_quantity with hc1 | hc1
            · rw [Nat.min_eq_left (Nat.sub_le_sub_right hc1 _)] at hrl
              rw [Nat.min_eq_left hc1]
              omega
            · rw [Nat.min_eq_right (Nat.sub_le_sub_right hc1 _)] at hrl
              rw [Nat.min_eq_right hc1]
              omega
          · rcases Nat.le_total inc.leaves_qty l.total_quantity with hc1 | hc1
            · rw [Nat.min_eq_left (Nat.sub_le_sub_right hc1 _)] at hrt
              rw [Nat.min_eq_left hc1]
              omega
            · rw [Nat.min_eq_right (Nat.sub_le_sub_right hc1 _)] at hrt
              rw [Nat.min_eq_right hc1]
              omega
          · rw [hq2] at hrs
            rw [hq]
            exact hrs.trans (List.sublist_cons_of_sublist _ (List.Sublist.refl _))
          · rw [hrlen]
            simp
          · intro r2 hr2
            have hr2qt : r2 ∉ qt := fun hh => hr2 (by rw [hq]; exact List.mem_cons_of_mem _ hh)
            have hr2qh : qh ≠ r2 := fun hh => hr2 (hh ▸ hqh_mem)
            rw [hrframe r2 (by rw [hq2]; exact hr2qt), List.get?_set_ne _ _ hr2qh]
          · rw [hrsat]
            dsimp only
            rw [hnosat]
            rfl
          · intro r2
            rw [hrids r2]
            dsimp only
            by_cases hcase : qh = r2
            · subst hcase
              rw [List.get?_set_eq_of_lt _ hqh_lt, hresting]
              rfl
            · rw [List.get?_set_ne _ _ hcase]
          · intro id2 hcond
            have hrs2 := hrs
            rw [hq2] at hrs2
            have hqh_l3 : qh ∉ l3.queue := fun hh => hqh_notin (hrs2.subset hh)
            have hqh_ne : ¬ resting.id = id2 :=
              hcond qh hqh_mem hqh_l3 resting hresting
            refine (hridx id2 ?_).trans ?_
            · intro r2 hr2 hr2n o2 ho2
              rw [hq2] at hr2
              dsimp only at ho2
              have hne : qh ≠ r2 := fun hh => hqh_notin (hh ▸ hr2)
              rw [List.get?_set_ne _ _ hne] at ho2
              exact hcond r2 (by rw [hq]; exact List.mem_cons_of_mem _ hr2) hr2n o2 ho2
            · dsimp only
              exact idx_lookup_erase_ne _ _ _ hqh_ne
          · intro id2 r2 hsome
            have h1 := hrerz id2 r2 hsome
            dsimp only at h1
            exact idx_lookup_erase_some _ _ _ _ h1
        · -- partial fill of the front order: the incoming order is exhausted
          rw [if_neg hfull]
          have hfill_eq : min inc.leaves_qty resting.leaves_qty = inc.leaves_qty := by
            rw [hfillr] at hfull
            rcases min_choice inc.leaves_qty resting.leaves_qty with hmm | hmm
            · exact hmm
            · omega
          have hmin_t : min inc.leaves_qty l.total_quantity = inc.leaves_qty :=
            Nat.min_eq_left (by rw [hfill_eq] at hfill_le_t; exact hfill_le_t)
          refine ⟨_, _, _, rfl, ?_, ?_, ?_, ?_, ?_, ?_, ?_, ?_, ?_, ?_⟩
          · rw [hfilli, hfill_eq, hmin_t]
          · rw [hredt, hfill_eq, hmin_t]
          · rw [PriceLevel.reduce_quantity_queue]
          · refine ⟨?_, ?_, ?_, ?_, ?_, ?_⟩
            · rw [hredt, PriceLevel.reduce_quantity_queue, hq, queue_leaves_sum_cons]
              rw [List.get?_set_eq_of_lt _ hqh_lt, hsumqt_set]
              dsimp only
              rw [hfillr]
              omega
            · rw [PriceLevel.reduce_quantity_count, PriceLevel.reduce_quantity_queue,
                hcnt]
            · rw [PriceLevel.reduce_quantity_queue]
              exact hlen
            · rw [PriceLevel.reduce_quantity_queue, hq, queue_leaves_sum_cons]
              rw [List.get?_set_eq_of_lt _ hqh_lt, hsumqt_set]
              dsimp only
              rw [hfillr]
              omega
            · rw [PriceLevel.reduce_quantity_queue]
              exact hnd
            · rw [PriceLevel.reduce_quantity_queue]
              intro r2 hr2
              obtain ⟨hlt2, hpos2⟩ := hrefs r2 hr2
              refine ⟨by simpa using hlt2, ?_⟩
              intro o2 ho2
              by_cases hcase : qh = r2
              · subst hcase
                rw [List.get?_set_eq_of_lt _ hqh_lt] at ho2
                have ho2' := Option.some.inj ho2
                rw [← ho2', hfillr]
                omega
              · rw [List.get?_set_ne _ _ hcase] at ho2
                exact hpos2 o2 ho2
          · simp
          · intro r2 hr2
            have hr2qh : qh ≠ r2 := fun hh => hr2 (hh ▸ hqh_mem)
            exact List.get?_set_ne _ _ hr2qh
          · dsimp only
            rw [hnosat]
            rfl
          · intro r2
            dsimp only
            by_cases hcase : qh = r2
            · subst hcase
              rw [List.get?_set_eq_of_lt _ hqh_lt, hresting]
              rfl
            · rw [List.get?_set_ne _ _ hcase]
          · intro id2 _
            rfl
          · intro id2 r2 hsome
            exact hsome


/-- `queue_leaves_sum` only reads the arena at the queue's refs. -/
theorem queue_leaves_sum_congr (a1 a2 : List Order) (q : List Nat)
    (h : ∀ r ∈ q, a2.get? r = a1.get? r) :
    queue_leaves_sum a2 q = queue_leaves_sum a1 q := by
  induction q with
  | nil => rfl
  | cons r t ih =>
      rw [queue_leaves_sum_cons, queue_leaves_sum_cons,
        h r (List.mem_cons_self _ _), ih (fun x hx => h x (List.mem_cons_of_mem _ hx))]

/-- `LevelWF` only reads the arena at the level's refs (and its length). -/
theorem LevelWF_congr (a1 a2 : List Order) (l : PriceLevel)
    (hlen : a2.length = a1.length)
    (hfr : ∀ r ∈ l.queue, a2.get? r = a1.get? r)
    (h : LevelWF a1 l) : LevelWF a2 l := by
  obtain ⟨h1, h2, h3, h4, h5, h6⟩ := h
  refine ⟨?_, h2, h3, ?_, h5, ?_⟩
  · rw [queue_leaves_sum_congr a1 a2 _ hfr]
    exact h1
  · rw [queue_leaves_sum_congr a1 a2 _ hfr]
    exact h4
  · intro r hr
    obtain ⟨hl, hp⟩ := h6 r hr
    refine ⟨by omega, ?_⟩
    rw [hfr r hr]
    exact hp

/-- Unpacking membership in the refs of a list of levels. -/
theorem levels_refs_mem (s : List PriceLevel) (r : Nat)
    (h : r ∈ levels_refs s) : ∃ lv, lv ∈ s ∧ r ∈ lv.queue := by
  induction s with
  | nil => cases h
  | cons l rest ih =>
      rcases List.mem_append.mp h with h1 | h1
      · exact ⟨l, List.mem_cons_self _ _, h1⟩
      · obtain ⟨lv, hlv, hrlv⟩ := ih h1
        exact ⟨lv, List.mem_cons_of_mem _ hlv, hrlv⟩

/-- `min` as a case split, in a form `omega` can consume. -/
theorem min_cases_nat (a b : Nat) :
    min a b = a ∧ a ≤ b ∨ min a b = b ∧ b ≤ a := by
  rcases Nat.le_total a b with h | h
  · exact Or.inl ⟨Nat.min_eq_left h, h⟩
  · exact Or.inr ⟨Nat.min_eq_right h, h⟩

/-- For a buy aggressor the FOK pre-check walk is exactly the comparison
of the needed quantity against the crossable depth, because the ask map
is walked in the same (ascending) direction as matching. -/
theorem can_fill_walk_buy (o : Order) (hb : o.is_buy = true) (needed : Nat)
    (contra : List PriceLevel) :
    can_fill_walk o needed contra =
      decide (needed ≤ crossable_sum o.price buy_price_ok contra) := by
  induction contra generalizing needed with
  | nil =>
      simp only [can_fill_walk, crossable_sum]
      cases needed <;> rfl
  | cons l rest ih =>
      by_cases hok : buy_price_ok o.price l.price = true
      · have hok2 : l.price ≤ o.price ∨ o.price = PRICE_MARKET := by
          unfold buy_price_ok at hok
          simpa using hok
        have hstop : (o.is_buy && decide (o.price < l.price) &&
            (o.price != PRICE_MARKET)) = false := by
          rw [hb]
          rcases hok2 with h | h
          · have hd : decide (o.price < l.price) = false :=
              decide_eq_false (not_lt.mpr h)
            simp [hd]
          · simp [h]
        have hstop2 : (!o.is_buy && decide (l.price < o.price) &&
            (o.price != PRICE_MARKET)) = false := by
          rw [hb]
          rfl
        have hcs : crossable_sum o.price buy_price_ok (l :: rest) =
            l.total_quantity + crossable_sum o.price buy_price_ok rest := by
          simp [crossable_sum, hok]
        rw [hcs]
        simp only [can_fill_walk]
        rw [if_neg (by simp [hstop]), if_neg (by simp [hstop2])]
        by_cases hz : needed - min needed l.total_quantity = 0
        · rw [if_pos hz]
          have hle : needed ≤ l.total_quantity +
              crossable_sum o.price buy_price_ok rest := by
            rcases min_cases_nat needed l.total_quantity with ⟨e, le⟩ | ⟨e, le⟩ <;>
              omega
          exact (decide_eq_true hle).symm
        · rw [if_neg hz, ih]
          have hiff : (needed - min needed l.total_quantity ≤
              crossable_sum o.price buy_price_ok rest) ↔
              (needed ≤ l.total_quantity + crossable_sum o.price buy_price_ok rest) := by
            rcases min_cases_nat needed l.total_quantity with ⟨e, le⟩ | ⟨e, le⟩ <;>
              omega
          exact decide_eq_decide.mpr hiff
      · have hok2 : o.price < l.price ∧ ¬ o.price = PRICE_MARKET := by
          unfold buy_price_ok at hok
          simp at hok
          exact ⟨hok.1, hok.2⟩
        have hstop : (o.is_buy && decide (o.price < l.price) &&
            (o.price != PRICE_MARKET)) = true := by
          rw [hb]
          simp [hok2.1, hok2.2]
        have hcs : crossable_sum o.price buy_price_ok (l :: rest) = 0 := by
          simp [crossable_sum, hok]
        rw [hcs]
        simp only [can_fill_walk]
        rw [if_pos (by rw [hstop])]
        cases needed <;> rfl

/-- The outer contra-side walk of `match_against` under aggregate-exact
hypotheses: it succeeds, consumes exactly `min leaves crossable` from the
incoming order, and preserves exactness, disjointness and all frame
properties of the inner walk. -/
theorem match_against_consume (inc_ref : Nat) (inc : Order)
    (contra : List PriceLevel) (price_ok : Int → Price → Bool) (c : MatchCtx)
    (hall : ∀ lv ∈ contra, LevelWF c.arena lv)
    (hdisj : LevelsDisjoint contra)
    (hinc : inc.leaves_qty < U64) :
    ∃ inc2 contra2 c2,
      OrderBook.match_against inc inc_ref contra price_ok c =
        some (inc2, contra2, c2) ∧
      inc2.leaves_qty =
        inc.leaves_qty - min inc.leaves_qty (crossable_sum inc.price price_ok contra) ∧
      (∀ lv ∈ contra2, LevelWF c2.arena lv) ∧
      LevelsDisjoint contra2 ∧
      (∀ r ∈ levels_refs contra2, r ∈ levels_refs contra) ∧
      c2.arena.length = c.arena.length ∧
      (∀ r2, r2 ∉ levels_refs contra → c2.arena.get? r2 = c.arena.get? r2) ∧
      c2.sat_events = c.sat_events ∧
      (∀ r2, Option.map (fun o => o.id) (c2.arena.get? r2) =
        Option.map (fun o => o.id) (c.arena.get? r2)) ∧
      (∀ id2, (∀ r2, r2 ∈ levels_refs contra → r2 ∉ levels_refs contra2 →
          ∀ o2, c.arena.get? r2 = some o2 → ¬ o2.id = id2) →
        idx_lookup c2.order_index id2 = idx_lookup c.order_index id2) ∧
      (∀ id2 r2, idx_lookup c2.order_index id2 = some r2 →
        idx_lookup c.order_index id2 = some r2) ∧
      levels_total contra2 ≤ levels_total contra ∧
      levels_count contra2 ≤ levels_count contra := by
  induction contra generalizing inc c with
  | nil =>
      exact ⟨inc, [], c, rfl, by simp [crossable_sum],
        fun lv hlv => absurd hlv (List.not_mem_nil _), List.Pairwise.nil,
        fun _ h => h, rfl, fun _ _ => rfl, rfl, fun _ => rfl, fun _ _ => rfl,
        fun _ _ h => h, le_refl _, le_refl _⟩
  | cons l rest ih =>
      by_cases hz : inc.leaves_qty = 0
      · refine ⟨inc, l :: rest, c, ?_, by simp [hz], hall, hdisj, fun _ h => h,
          rfl, fun _ _ => rfl, rfl, fun _ => rfl, fun _ _ => rfl, fun _ _ h => h,
          le_refl _, le_refl _⟩
        unfold OrderBook.match_against
        rw [if_pos hz]
      · by_cases hok : price_ok inc.price l.price = true
        · have hlw := hall l (List.mem_cons_self _ _)
          obtain ⟨inc2, l2, c2, heq, hleaves, htot, hsub, hlw2, hlen, hframe,
            hsat, hids, hidx, herz⟩ :=
            match_level_consume inc_ref l.queue inc l c rfl hlw hinc
          have heq2 : OrderBook.match_against_level inc inc_ref l c =
              some (inc2, l2, c2) := heq
          have hf := match_level_go_fields inc_ref l.queue inc l c inc2 l2 c2 heq
          have hcs : crossable_sum inc.price price_ok (l :: rest) =
              l.total_quantity + crossable_sum inc.price price_ok rest := by
            simp only [crossable_sum]
            rw [if_pos hok]
          have hdhead := (List.pairwise_cons.mp hdisj).1
          have hdisj2 : LevelsDisjoint rest := (List.pairwise_cons.mp hdisj).2
          have hall2 : ∀ lv ∈ rest, LevelWF c2.arena lv := by
            intro lv hlv
            refine LevelWF_congr c.arena c2.arena lv hlen ?_
              (hall lv (List.mem_cons_of_mem _ hlv))
            intro r hr
            exact hframe r (fun hrl => hdhead lv hlv r hrl hr)
          unfold OrderBook.match_against
          rw [if_neg hz, if_neg (not_not_intro hok), heq2]
          dsimp only
          by_cases hcnt0 : l2.order_count = 0
          · rw [if_pos hcnt0]
            obtain ⟨ht2, hc2, _, _, _, hrefs2⟩ := hlw2
            have hq2nil : l2.queue = [] :=
              List.length_eq_zero.mp (by rw [← hc2]; exact hcnt0)
            have ht20 : l2.total_quantity = 0 := by
              rw [ht2, hq2nil]
              rfl
            have hinc2lt : inc2.leaves_qty < U64 := by
              rcases min_cases_nat inc.leaves_qty l.total_quantity with ⟨e, le⟩ | ⟨e, le⟩ <;>
                omega
            obtain ⟨inc3, contra3, c3, heq3, hl3, hall3, hdisj3, hrefs3, hlen3,
              hframe3, hsat3, hids3, hidx3, herz3, htol3, hcnt3⟩ :=
              ih inc2 c2 hall2 hdisj2 hinc2lt
            rw [hf.1] at hl3
            refine ⟨inc3, contra3, c3, heq3, ?_, hall3, hdisj3, ?_, ?_, ?_,
              ?_, ?_, ?_, ?_, ?_, ?_⟩
            · rw [hcs]
              rcases min_cases_nat inc.leaves_qty l.total_quantity with
                ⟨e1, le1⟩ | ⟨e1, le1⟩ <;>
              rcases min_cases_nat inc2.leaves_qty
                  (crossable_sum inc.price price_ok rest) with
                ⟨e2, le2⟩ | ⟨e2, le2⟩ <;>
              rcases min_cases_nat inc.leaves_qty
                  (l.total_quantity + crossable_sum inc.price price_ok rest) with
                ⟨e3, le3⟩ | ⟨e3, le3⟩ <;>
                omega
            · intro r hr
              exact List.mem_append.mpr (Or.inr (hrefs3 r hr))
            · exact hlen3.trans hlen
            · intro r2 hr2
              have h1 : r2 ∉ l.queue := fun hh => hr2 (List.mem_append.mpr (Or.inl hh))
              have h2 : r2 ∉ levels_refs rest :=
                fun hh => hr2 (List.mem_append.mpr (Or.inr hh))
              rw [hframe3 r2 h2, hframe r2 h1]
            · exact hsat3.trans hsat
            · intro r2
              rw [hids3 r2, hids r2]
            · intro id2 hcond
              refine (hidx3 id2 ?_).trans (hidx id2 ?_)
              · intro r2 hr2 hr2n o2 ho2
                have h1 : r2 ∉ l.queue := by
                  intro hh
                  obtain ⟨lv, hlv, hrlv⟩ := levels_refs_mem rest r2 hr2
                  exact hdhead lv hlv r2 hh hrlv
                rw [hframe r2 h1] at ho2
                exact hcond r2 (List.mem_append.mpr (Or.inr hr2)) hr2n o2 ho2
              · intro r2 hr2 hr2n o2 ho2
                refine hcond r2 (List.mem_append.mpr (Or.inl hr2)) ?_ o2 ho2
                intro hh
                obtain ⟨lv, hlv, hrlv⟩ := levels_refs_mem contra3 r2 hh
                have hr2rest := hrefs3 r2 hh
                obtain ⟨lv2, hlv2, hrlv2⟩ := levels_refs_mem rest r2 hr2rest
                exact hdhead lv2 hlv2 r2 hr2 hrlv2
            · intro id2 r2 h
              exact herz id2 r2 (herz3 id2 r2 h)
            · simp only [levels_total]
              omega
            · simp only [levels_count]
              omega
          · rw [if_neg hcnt0]
            obtain ⟨ht2, hc2, hl2len, hl2sum, hl2nd, hrefs2⟩ := hlw2
            have hq2ne : ¬ l2.queue = [] := by
              intro hh
              apply hcnt0
              rw [hc2, hh]
              rfl
            have htpos : 0 < l2.total_quantity := by
              cases hq2 : l2.queue with
              | nil => exact absurd hq2 hq2ne
              | cons a t =>
                  have hmem : a ∈ l2.queue := by
                    rw [hq2]
                    exact List.mem_cons_self _ _
                  obtain ⟨halt, hapos⟩ := hrefs2 a hmem
                  obtain ⟨o2, ho2⟩ : ∃ o2, c2.arena.get? a = some o2 := by
                    cases harr : c2.arena.get? a with
                    | none =>
                        have := List.get?_eq_none.mp harr
                        omega
                    | some o => exact ⟨o, rfl⟩
                  have hop := hapos o2 (Option.mem_def.mpr ho2)
                  rw [ht2, hq2, queue_leaves_sum_cons, ho2]
                  dsimp only
                  omega
            refine ⟨inc2, l2 :: rest, c2, rfl, ?_, ?_, ?_, ?_, hlen, ?_, hsat,
              hids, ?_, herz, ?_, ?_⟩
            · rw [hcs]
              rcases min_cases_nat inc.leaves_qty l.total_quantity with
                ⟨e1, le1⟩ | ⟨e1, le1⟩ <;>
              rcases min_cases_nat inc.leaves_qty
                  (l.total_quantity + crossable_sum inc.price price_ok rest) with
                ⟨e3, le3⟩ | ⟨e3, le3⟩ <;>
                omega
            · intro lv hlv
              rcases List.mem_cons.mp hlv with hlv | hlv
              · rw [hlv]
                exact ⟨ht2, hc2, hl2len, hl2sum, hl2nd, hrefs2⟩
              · exact hall2 lv hlv
            · refine List.pairwise_cons.mpr ⟨?_, hdisj2⟩
              intro lv hlv r hr
              exact hdhead lv hlv r (hsub.subset hr)
            · intro r hr
              rcases List.mem_append.mp hr with h1 | h1
              · exact List.mem_append.mpr (Or.inl (hsub.subset h1))
              · exact List.mem_append.mpr (Or.inr h1)
            · intro r2 hr2
              exact hframe r2 (fun hh => hr2 (List.mem_append.mpr (Or.inl hh)))
            · intro id2 hcond
              refine hidx id2 ?_
              intro r2 hr2 hr2n o2 ho2
              refine hcond r2 (List.mem_append.mpr (Or.inl hr2)) ?_ o2 ho2
              intro hh
              rcases List.mem_append.mp hh with h1 | h1
              · exact hr2n h1
              · obtain ⟨lv, hlv, hrlv⟩ := levels_refs_mem rest r2 h1
                exact hdhead lv hlv r2 hr2 hrlv
            · simp only [levels_total]
              rcases min_cases_nat inc.leaves_qty l.total_quantity with
                ⟨e1, le1⟩ | ⟨e1, le1⟩ <;> omega
            · simp only [levels_count]
              have := hsub.length_le
              omega
        · refine ⟨inc, l :: rest, c, ?_, ?_, hall, hdisj, fun _ h => h, rfl,
            fun _ _ => rfl, rfl, fun _ => rfl, fun _ _ => rfl, fun _ _ h => h,
            le_refl _, le_refl _⟩
          · unfold OrderBook.match_against
            rw [if_neg hz, if_pos hok]
          · have hcs : crossable_sum inc.price price_ok (l :: rest) = 0 := by
              unfold crossable_sum
              rw [if_neg hok]
            rw [hcs]
            simp

/-- A level stays aggregate-exact when the arena grows at the end. -/
theorem LevelWF_append (a : List Order) (x : Order) (l : PriceLevel)
    (h : LevelWF a l) : LevelWF (a ++ [x]) l := by
  obtain ⟨h1, h2, h3, h4, h5, h6⟩ := h
  have hfr : ∀ r ∈ l.queue, (a ++ [x]).get? r = a.get? r := by
    intro r hr
    exact List.get?_append (h6 r hr).1
  refine ⟨?_, h2, h3, ?_, h5, ?_⟩
  · rw [queue_leaves_sum_congr a _ _ hfr]
    exact h1
  · rw [queue_leaves_sum_congr a _ _ hfr]
    exact h4
  · intro r hr
    obtain ⟨hl, hp⟩ := h6 r hr
    refine ⟨by simp; omega, ?_⟩
    rw [hfr r hr]
    exact hp

/-- C4 (amended): an FOK order whose pre-check fails is admitted with zero
fills - no trade is emitted, neither side map changes, the order is stored
Cancelled with `leaves_qty = 0` and absent from the id index; conversely a
BUY FOK order against an aggregate-exact book whose pre-check passes
executes completely (its stored remainder has `leaves_qty = 0`).  The
converse direction is restricted to buys: for a sell FOK the pre-check
walks the bid map lowest-price-first and can veto a coverable order. -/
theorem c4_fok_atomicity_amended :
    (∀ (b : OrderBook) (req : NewOrderRequest),
      req.type = OrderType.FOK → ¬ req.quantity = 0 →
      OrderBook.can_fill_completely b (order_of_request b.ctx req) = false →
      ∃ b2, b.add_order req = some b2 ∧
        b2.bids = b.bids ∧ b2.asks = b.asks ∧
        b2.ctx.trades = b.ctx.trades ∧
        idx_lookup b2.ctx.order_index req.id = none ∧
        ∃ o2, b2.ctx.arena.get? b.ctx.arena.length = some o2 ∧
          o2.status = OrderStatus.Cancelled ∧ o2.leaves_qty = 0 ∧
          o2.filled_qty = 0) ∧
    (∀ (b : OrderBook) (req : NewOrderRequest),
      WFAgg b → req.type = OrderType.FOK →
      (order_of_request b.ctx req).is_buy = true →
      req.quantity < U64 →
      OrderBook.can_fill_completely b (order_of_request b.ctx req) = true →
      ∃ b2 o2, b.add_order req = some b2 ∧
        b2.ctx.arena.get? b.ctx.arena.length = some o2 ∧
        o2.leaves_qty = 0 ∧ o2.id = req.id) := by
  constructor
  · intro b req hty hq0 hcf
    have hty1 : (order_of_request b.ctx req).type = OrderType.FOK := hty
    have hq1 : ¬ (order_of_request b.ctx req).leaves_qty = 0 := hq0
    have hcond : ((order_of_request b.ctx req).type == OrderType.FOK &&
        !(OrderBook.can_fill_completely
          { b with ctx := { b.ctx with
              arena := b.ctx.arena ++ [order_of_request b.ctx req]
              next_sequence := wadd b.ctx.next_sequence 1
              order_index := idx_insert b.ctx.order_index req.id b.ctx.arena.length } }
          (order_of_request b.ctx req))) = true := by
      have hcf1 : OrderBook.can_fill_completely
          { b with ctx := { b.ctx with
              arena := b.ctx.arena ++ [order_of_request b.ctx req]
              next_sequence := wadd b.ctx.next_sequence 1
              order_index := idx_insert b.ctx.order_index req.id b.ctx.arena.length } }
          (order_of_request b.ctx req) = false := hcf
      rw [hty1, hcf1]
      rfl
    have hms : OrderBook.match_step
        { b with ctx := { b.ctx with
            arena := b.ctx.arena ++ [order_of_request b.ctx req]
            next_sequence := wadd b.ctx.next_sequence 1
            order_index := idx_insert b.ctx.order_index req.id b.ctx.arena.length } }
        (order_of_request b.ctx req) b.ctx.arena.length =
        some (order_of_request b.ctx req,
          { b with ctx := { b.ctx with
              arena := b.ctx.arena ++ [order_of_request b.ctx req]
              next_sequence := wadd b.ctx.next_sequence 1
              order_index := idx_insert b.ctx.order_index req.id b.ctx.arena.length } }) := by
      unfold OrderBook.match_step
      rw [if_pos hcond]
    have hadd : b.add_order req = some { b with ctx := { b.ctx with
        arena := ((b.ctx.arena ++ [order_of_request b.ctx req]).set
          b.ctx.arena.length (order_of_request b.ctx req)).set
          b.ctx.arena.length (order_of_request b.ctx req).cancel
        next_sequence := wadd b.ctx.next_sequence 1
        order_index := idx_erase
          (idx_insert b.ctx.order_index req.id b.ctx.arena.length)
          (order_of_request b.ctx req).id } } := by
      unfold OrderBook.add_order
      dsimp only
      rw [hms]
      dsimp only
      rw [if_neg hq1, hty1]
    refine ⟨_, hadd, rfl, rfl, rfl, ?_, ?_⟩
    · exact idx_lookup_erase_self _ _
    · refine ⟨(order_of_request b.ctx req).cancel, ?_, rfl, rfl, rfl⟩
      have hlt : b.ctx.arena.length <
          ((b.ctx.arena ++ [order_of_request b.ctx req]).set b.ctx.arena.length
            (order_of_request b.ctx req)).length := by
        simp
      exact List.get?_set_eq_of_lt _ hlt
  · intro b req hwf hty hbuy hqlt hcf
    have hwf1 : ∀ lv ∈ b.asks, LevelWF
        (b.ctx.arena ++ [order_of_request b.ctx req]) lv := fun lv hlv =>
      LevelWF_append _ _ _ (hwf.1 lv (List.mem_append.mpr (Or.inr hlv)))
    have hdisj : LevelsDisjoint b.asks :=
      (List.pairwise_append.mp hwf.2).2.1
    obtain ⟨inc2, contra2, c2, heq, hl2, _, _, _, hlen2, _, _, _, _, _⟩ :=
      match_against_consume b.ctx.arena.length (order_of_request b.ctx req)
        b.asks buy_price_ok
        { b.ctx with
            arena := b.ctx.arena ++ [order_of_request b.ctx req]
            next_sequence := wadd b.ctx.next_sequence 1
            order_index := idx_insert b.ctx.order_index req.id b.ctx.arena.length }
        hwf1 hdisj hqlt
    have hfld := match_against_shape _ _ _ _ _ _ _ _ heq
    have hid2 : inc2.id = req.id := hfld.2.2.2.2.1
    have hwalk : can_fill_walk (order_of_request b.ctx req)
        (order_of_request b.ctx req).leaves_qty
        (OrderBook.contra_map_order b (order_of_request b.ctx req)) = true := hcf
    have hmap : OrderBook.contra_map_order b (order_of_request b.ctx req) =
        b.asks := by
      unfold OrderBook.contra_map_order
      rw [if_pos hbuy]
    rw [hmap, can_fill_walk_buy _ hbuy] at hwalk
    have hge : (order_of_request b.ctx req).leaves_qty ≤
        crossable_sum (order_of_request b.ctx req).price buy_price_ok b.asks :=
      of_decide_eq_true hwalk
    have hz2 : inc2.leaves_qty = 0 := by
      rw [hl2, Nat.min_eq_left hge]
      omega
    have hcondf : ¬ (((order_of_request b.ctx req).type == OrderType.FOK &&
        !(OrderBook.can_fill_completely
          { b with ctx := { b.ctx with
              arena := b.ctx.arena ++ [order_of_request b.ctx req]
              next_sequence := wadd b.ctx.next_sequence 1
              order_index := idx_insert b.ctx.order_index req.id b.ctx.arena.length } }
          (order_of_request b.ctx req))) = true) := by
      have hc : OrderBook.can_fill_completely
          { b with ctx := { b.ctx with
              arena := b.ctx.arena ++ [order_of_request b.ctx req]
              next_sequence := wadd b.ctx.next_sequence 1
              order_index := idx_insert b.ctx.order_index req.id b.ctx.arena.length } }
          (order_of_request b.ctx req) = true := hcf
      rw [hc]
      simp
    have hms : OrderBook.match_step
        { b with ctx := { b.ctx with
            arena := b.ctx.arena ++ [order_of_request b.ctx req]
            next_sequence := wadd b.ctx.next_sequence 1
            order_index := idx_insert b.ctx.order_index req.id b.ctx.arena.length } }
        (order_of_request b.ctx req) b.ctx.arena.length =
        some (inc2, { b with asks := contra2, ctx := c2 }) := by
      unfold OrderBook.match_step
      rw [if_neg hcondf, if_pos hbuy]
      dsimp only
      rw [heq]
    have hadd : b.add_order req = some
        { b with
          asks := contra2
          ctx := { c2 with arena := c2.arena.set b.ctx.arena.length inc2 } } := by
      unfold OrderBook.add_order
      dsimp only
      rw [hms]
      dsimp only
      rw [if_pos hz2]
    refine ⟨_, inc2, hadd, ?_, hz2, hid2⟩
    dsimp only
    have hlt : b.ctx.arena.length < c2.arena.length := by
      rw [hlen2]
      simp
    exact List.get?_set_eq_of_lt _ hlt

/-- C4 witness: on the empty book the FOK buy (10 at 100) is infeasible and
is cancelled atomically; on a book with one resting sell (10 at 100) the
same FOK buy is feasible and executes completely. -/
theorem c4_fok_atomicity_amended_witness :
    (∃ b2, OrderBook.empty.add_order c4w_fok_req = some b2 ∧
      b2.bids = OrderBook.empty.bids ∧ b2.asks = OrderBook.empty.asks ∧
      b2.ctx.trades = OrderBook.empty.ctx.trades ∧
      idx_lookup b2.ctx.order_index c4w_fok_req.id = none ∧
      ∃ o2, b2.ctx.arena.get? OrderBook.empty.ctx.arena.length = some o2 ∧
        o2.status = OrderStatus.Cancelled ∧ o2.leaves_qty = 0 ∧
        o2.filled_qty = 0) ∧
    (∃ b2 o2, c4w_book.add_order c4w_fok_req = some b2 ∧
      b2.ctx.arena.get? c4w_book.ctx.arena.length = some o2 ∧
      o2.leaves_qty = 0 ∧ o2.id = c4w_fok_req.id) := by
  constructor
  · exact c4_fok_atomicity_amended.1 OrderBook.empty c4w_fok_req rfl
      (by decide) (by decide)
  · refine c4_fok_atomicity_amended.2 c4w_book c4w_fok_req ⟨?_, ?_⟩ rfl rfl
      (by decide) (by decide)
    · intro l hl
      have hl2 : l = c4w_level := by
        simpa [c4w_book] using hl
      subst hl2
      refine ⟨by decide, by decide, by decide, by decide, by decide, ?_⟩
      intro r hr
      have hr0 : r = 0 := by
        simpa [c4w_level] using hr
      subst hr0
      refine ⟨by decide, ?_⟩
      intro o2 ho2
      have h2 : c4w_arena.get? 0 = some o2 := Option.mem_def.mp ho2
      have h3 : c4w_resting = o2 := by
        simpa [c4w_arena] using h2
      rw [← h3]
      decide
    · simp [c4w_book, LevelsDisjoint]


end MicroExchange
